import Mathlib

/-!
Verification development for the plexus SDN router application
(src/plexus/app.py).  The Python data model is shallowly embedded:
dictionaries become association lists, IPv4 addresses become natural
numbers below 2^32, machine integers are `Nat` with explicit masking, and
exception-raising code returns a result paired with an `Except` value so
that the state after a raising call stays observable.
-/

set_option linter.unusedVariables false

namespace Plexus

/-! Constants, translated from the top of src/plexus/app.py. -/

def UINT16_MAX : Nat := 0xffff

def UINT32_MAX : Nat := 0xffffffff

def MAX_SUSPENDPACKETS : Nat := 3

/-- OFP_REPLY_TIMER = 1.0 seconds, the bound passed to the event wait in
`OfCtl.send_stats_request`.  The Python float 1.0 is exact. -/
def OFP_REPLY_TIMER : ℚ := 1

def VLANID_NONE : Nat := 0

def VLANID_MIN : Nat := 2

def VLANID_MAX : Nat := 4094

def COOKIE_DEFAULT_ID : Nat := 0

def COOKIE_SHIFT_VLANID : Nat := 32

def COOKIE_SHIFT_ROUTEID : Nat := 16

def PRIORITY_VLAN_SHIFT : Nat := 1000

def PRIORITY_NETMASK_SHIFT : Nat := 32

def PRIORITY_ARP_HANDLING : Nat := 1

def PRIORITY_DEFAULT_ROUTING : Nat := 1

def PRIORITY_ADDRESSED_DEFAULT_ROUTING : Nat := 2

def PRIORITY_MAC_LEARNING : Nat := 3

def PRIORITY_STATIC_ROUTING : Nat := 3

def PRIORITY_ADDRESSED_STATIC_ROUTING : Nat := 4

def PRIORITY_IMPLICIT_ROUTING : Nat := 5

def PRIORITY_L2_SWITCHING : Nat := 6

def PRIORITY_IP_HANDLING : Nat := 7

/-! Cookie encoding, from `VlanRouter._cookie_to_id` and
`VlanRouter._id_to_cookie` (app.py lines 700-723). -/

/-- The three id kinds (REST_VLANID, REST_ADDRESSID, REST_ROUTEID) that
the cookie codec dispatches on. -/
inductive RestId where
  | vlanid
  | addressid
  | routeid
deriving DecidableEq

/-- Translation of the static method `VlanRouter._cookie_to_id`. -/
def cookie_to_id (id_type : RestId) (cookie : Nat) : Nat :=
  match id_type with
  | .vlanid => cookie >>> COOKIE_SHIFT_VLANID
  | .addressid => cookie &&& UINT32_MAX
  | .routeid => (cookie &&& UINT32_MAX) >>> COOKIE_SHIFT_ROUTEID

/-- Translation of `VlanRouter._id_to_cookie`; `vlan_id` is the
`self.vlan_id` of the VlanRouter the method runs on. -/
def id_to_cookie (vlan_id : Nat) (id_type : RestId) (rest_id : Nat) : Nat :=
  let vid := vlan_id <<< COOKIE_SHIFT_VLANID
  match id_type with
  | .vlanid => rest_id <<< COOKIE_SHIFT_VLANID
  | .addressid => vid + rest_id
  | .routeid => vid + (rest_id <<< COOKIE_SHIFT_ROUTEID)

/-! IPv4 address utilities, from the bottom of app.py.  Addresses are
natural numbers below 2^32 (the value of the dotted-quad string; the
canonical string rendering is injective, so string comparisons between
rendered addresses are modelled as comparisons of the values). -/

/-- Translation of `mask_ntob` for masks in 0..32.  For a mask above 32
the Python code raises ValueError (negative shift); all call sites reach
it only with masks that `nw_addr_aton` has already bounded by 32, and the
raising case is modelled at the `nw_addr_aton` level. -/
def mask_ntob (mask : Nat) : Nat :=
  (UINT32_MAX <<< (32 - mask)) &&& UINT32_MAX

/-- Translation of `ipv4_apply_mask` (same caveat as `mask_ntob`). -/
def ipv4_apply_mask (address : Nat) (prefix_len : Nat) : Nat :=
  address &&& mask_ntob prefix_len

/-- Clearing the low `32 - m` bits of a 32-bit value, in division form;
`ipv4_apply_mask_eq` bridges it to the source's bitmask form.  This is
the network-prefix of `a` for mask length `m`. -/
def maskAlign (a m : Nat) : Nat :=
  a / 2 ^ (32 - m) * 2 ^ (32 - m)

/-! Exceptions.  `valueError` stands for Python ValueError, raised by the
parsing helpers; `commandFailure` stands for the CommandFailure exception
raised on semantic rejections. -/

inductive PyErr where
  | valueError
  | commandFailure
deriving DecidableEq

/-- Splitting a character list on a separator, the semantics of Python
`str.split(sep)` for a one-character separator (the empty string yields
one empty part). -/
def splitOnChar (sep : Char) : List Char → List (List Char)
  | [] => [[]]
  | c :: rest =>
    let r := splitOnChar sep rest
    if c = sep then [] :: r
    else (c :: r.headD []) :: r.tail

/-- Python `s.split(sep)` on the underlying characters. -/
def pySplit (s : String) (sep : Char) : List (List Char) :=
  splitOnChar sep s.data

/-- Decimal value of a digit list. -/
def digitsVal (l : List Char) : Nat :=
  l.foldl (fun acc c => acc * 10 + (c.toNat - 48)) 0

/-- Modelled from the spec: one octet accepted by `socket.inet_aton`, an
external C routine that the spec describes as part of "IPv4
parse/format": a nonempty decimal digit run of value at most 255. -/
def parseOctet (l : List Char) : Option Nat :=
  if l ≠ [] ∧ l.all Char.isDigit then
    if digitsVal l ≤ 255 then some (digitsVal l) else none
  else none

/-- Modelled from the spec: dotted-quad parse on the characters. -/
def inet_atonChars (l : List Char) : Option Nat :=
  match splitOnChar '.' l with
  | [a, b, c, d] =>
    match parseOctet a, parseOctet b, parseOctet c, parseOctet d with
    | some pa, some pb, some pc, some pd =>
      some (((pa * 256 + pb) * 256 + pc) * 256 + pd)
    | _, _, _, _ => none
  | _ => none

/-- Modelled from the spec: dotted-quad parse used by `ip_addr_aton`. -/
def inet_aton (s : String) : Option Nat :=
  inet_atonChars s.data

/-- Translation of `ip_addr_aton`: a failed parse raises ValueError. -/
def ip_addr_aton (ip_str : String) : Except PyErr Nat :=
  match inet_aton ip_str with
  | some n => .ok n
  | none => .error .valueError

/-- Modelled from the spec: Python `int()` on the netmask component; an
optional minus sign followed by decimal digits. -/
def parsePyInt (l : List Char) : Option Int :=
  match l with
  | '-' :: rest =>
    if rest ≠ [] ∧ rest.all Char.isDigit then some (-(digitsVal rest : Int))
    else none
  | _ =>
    if l ≠ [] ∧ l.all Char.isDigit then some (digitsVal l : Int)
    else none

/-- Translation of `nw_addr_aton`.  Splits on "/", parses the address
part, then the netmask (default 32; only taken from the second component
when the split has exactly two parts).  A negative netmask raises
ValueError directly; a netmask above 32 raises ValueError inside the
final `ipv4_apply_mask` call (negative shift in `mask_ntob`).  Returns
(network address, netmask, parsed host address). -/
def nw_addr_aton (nw_addr : String) : Except PyErr (Nat × Nat × Nat) :=
  match inet_atonChars ((pySplit nw_addr '/').headD []) with
  | none => .error .valueError
  | some default_route =>
    match (match pySplit nw_addr '/' with
           | [_, mstr] => parsePyInt mstr
           | _ => some 32) with
    | none => .error .valueError
    | some netmask =>
      if netmask < 0 then .error .valueError
      else if 32 < netmask then .error .valueError
      else .ok (ipv4_apply_mask default_route netmask.toNat, netmask.toNat, default_route)

/-! The Address data model (class Address / class AddressData). -/

/-- Translation of `class Address`: one locally attached subnet. -/
structure Address where
  address_id : Nat
  nw_addr : Nat
  netmask : Nat
  default_gw : Nat
deriving DecidableEq

/-- Translation of `Address.__contains__`. -/
def Address.containsIp (a : Address) (ip : Nat) : Bool :=
  ipv4_apply_mask ip a.netmask == a.nw_addr

/-- Python dict assignment on an association list: replace the value in
place when the key is present, append otherwise. -/
def dictInsert {α β : Type} [DecidableEq α] (l : List (α × β)) (k : α) (v : β) :
    List (α × β) :=
  if l.any (fun p => p.1 = k) then
    l.map (fun p => if p.1 = k then (k, v) else p)
  else
    l ++ [(k, v)]

/-- Removal of the first element satisfying `f` (a Python loop that
deletes one matching dict entry and returns). -/
def removeFirst {α : Type} (l : List α) (f : α → Bool) : List α :=
  match l with
  | [] => []
  | x :: xs => if f x then xs else x :: removeFirst xs f

/-- Translation of `class AddressData`: the dict maps the key
"nw_addr/netmask" (modelled as the pair of values) to an Address; the
`address_id` counter starts at 1. -/
structure AddressData where
  addresses : List ((Nat × Nat) × Address)
  address_id : Nat
deriving DecidableEq

def AddressData.init : AddressData := ⟨[], 1⟩

/-- Translation of `AddressData.add`.  The state is returned alongside
the result so that the (absence of) mutation on an exception is
observable. -/
def AddressData.add (d : AddressData) (address : String) :
    AddressData × Except PyErr Address :=
  match nw_addr_aton address with
  | .error e => (d, .error e)
  | .ok (nw_addr, mask, default_gw) =>
    if d.addresses.any (fun p =>
        p.2.nw_addr == ipv4_apply_mask default_gw p.2.netmask ||
        nw_addr == ipv4_apply_mask p.2.default_gw mask) then
      (d, .error .commandFailure)
    else
      let a : Address := ⟨d.address_id, nw_addr, mask, default_gw⟩
      let id1 := (d.address_id + 1) &&& UINT32_MAX
      (⟨dictInsert d.addresses (nw_addr, mask) a,
        if id1 = COOKIE_DEFAULT_ID then 1 else id1⟩, .ok a)

/-- Translation of `AddressData.delete`: removes the (single) entry with
the given id, if any. -/
def AddressData.delete (d : AddressData) (address_id : Nat) : AddressData :=
  ⟨removeFirst d.addresses (fun p => p.2.address_id == address_id), d.address_id⟩

/-- Translation of `AddressData.get_data(addr_id=...)`. -/
def AddressData.get_data_by_id (d : AddressData) (addr_id : Nat) : Option Address :=
  (d.addresses.find? (fun p => p.2.address_id == addr_id)).map (·.2)

/-- Translation of `AddressData.get_data(ip=...)`. -/
def AddressData.get_data_by_ip (d : AddressData) (ip : Nat) : Option Address :=
  (d.addresses.find? (fun p =>
    ipv4_apply_mask ip p.2.netmask == p.2.nw_addr)).map (·.2)

/-- Translation of `AddressData.get_default_gw`. -/
def AddressData.get_default_gw (d : AddressData) : List Nat :=
  d.addresses.map (·.2.default_gw)

/-- The claim's containment relation on addresses: x's network address
lies within y's prefix. -/
def nwWithin (x y : Address) : Prop :=
  ipv4_apply_mask x.nw_addr y.netmask = y.nw_addr

instance (x y : Address) : Decidable (nwWithin x y) :=
  inferInstanceAs (Decidable (_ = _))

/-- States of an AddressData reachable by any sequence of `add` and
`delete` calls from construction. -/
inductive ADReachable : AddressData → Prop where
  | init : ADReachable AddressData.init
  | add (d : AddressData) (s : String) (h : ADReachable d) :
      ADReachable (d.add s).1
  | del (d : AddressData) (i : Nat) (h : ADReachable d) :
      ADReachable (d.delete i)

/-- Invariant carried by every reachable AddressData: keys render their
address, stored fields are in range and aligned, and no two stored
addresses overlap. -/
def ADInv (d : AddressData) : Prop :=
  (∀ p ∈ d.addresses, p.1 = (p.2.nw_addr, p.2.netmask) ∧ p.2.netmask ≤ 32 ∧
    p.2.default_gw < 2 ^ 32 ∧
    p.2.nw_addr = ipv4_apply_mask p.2.default_gw p.2.netmask) ∧
  (d.addresses.map (·.2)).Pairwise (fun x y => ¬ nwWithin x y ∧ ¬ nwWithin y x)

/-- The AddressData after one successful add of 10.0.0.1/24, for the
witnesses. -/
def adOneAddr : AddressData := (AddressData.init.add "10.0.0.1/24").1

/-! The routing data model (Route / RoutingTable / PolicyRoutingTable). -/

/-- A Python value that is either the int 0 (stored by `RoutingTable.add`
for the default route and by `Route.__init__` for an absent source) or a
dotted-quad string (modelled by its 32-bit value; all such strings in the
program are canonical renderings, so string equality is value equality).
The distinction matters: the int 0 is falsy and never equal to a string,
while the string "0.0.0.0" is truthy. -/
inductive IpVal where
  | intZero
  | str (v : Nat)
deriving DecidableEq

/-- Python truthiness of an `IpVal`: int 0 is falsy, a (nonempty) string
is truthy. -/
def IpVal.truthy : IpVal → Bool
  | .intZero => false
  | .str _ => true

/-- Python `==` between an `IpVal` field and a canonical dotted-quad
string of value `n` (as produced by `ipv4_apply_mask`). -/
def IpVal.eqAddr : IpVal → Nat → Bool
  | .intZero, _ => false
  | .str v, n => v == n

/-- Value used when the field is rendered through `ip_addr_ntoa` to build
a dict key (`ip_addr_ntoa` maps both the int 0 and "0.0.0.0" to
"0.0.0.0"). -/
def IpVal.toKeyNat : IpVal → Nat
  | .intZero => 0
  | .str v => v

/-- Translation of `class Route`.  `gateway_mac` is None until an ARP
reply resolves it. -/
structure Route where
  route_id : Nat
  dst_ip : IpVal
  dst_netmask : Nat
  gateway_ip : Nat
  gateway_mac : Option Nat
  src_ip : IpVal
  src_netmask : Nat
deriving DecidableEq

/-- Translation of `Route.__init__` (src fields from the optional source
Address, gateway_mac starts as None). -/
def Route.make (route_id : Nat) (dst_ip : IpVal) (dst_netmask : Nat)
    (gateway_ip : Nat) (src_address : Option Address) : Route :=
  match src_address with
  | none => ⟨route_id, dst_ip, dst_netmask, gateway_ip, none, .intZero, 0⟩
  | some a => ⟨route_id, dst_ip, dst_netmask, gateway_ip, none, .str a.nw_addr, a.netmask⟩

/-- The INADDR_ANY dict key "0.0.0.0/0" in pair form. -/
def INADDR_ANY_KEY : Nat × Nat := (0, 0)

/-- Translation of `class RoutingTable`: destination-CIDR key (pair form
of "dst/mask") to Route, plus the optional source Address. -/
structure RoutingTable where
  routes : List ((Nat × Nat) × Route)
  src_address : Option Address
deriving DecidableEq

/-- Translation of `RoutingTable.add`.  The literal comparison of the
input string against INADDR_ANY = "0.0.0.0/0" selects the int-0 default
route; otherwise the destination is parsed.  A duplicate destination key
raises CommandFailure. -/
def RoutingTable.add (t : RoutingTable) (dst_nw_addr gateway_ip : String)
    (route_id : Nat) : RoutingTable × Except PyErr Route :=
  let parsed : Except PyErr (IpVal × Nat) :=
    if dst_nw_addr = "0.0.0.0/0" then .ok (.intZero, 0)
    else
      match nw_addr_aton dst_nw_addr with
      | .error e => .error e
      | .ok (dst_ip, dst_netmask, _) => .ok (.str dst_ip, dst_netmask)
  match parsed with
  | .error e => (t, .error e)
  | .ok (dst_ip, dst_netmask) =>
    match ip_addr_aton gateway_ip with
    | .error e => (t, .error e)
    | .ok gw =>
      let key := (dst_ip.toKeyNat, dst_netmask)
      if t.routes.any (fun p => p.1 = key) then
        (t, .error .commandFailure)
      else
        let r := Route.make route_id dst_ip dst_netmask gw t.src_address
        (⟨dictInsert t.routes key r, t.src_address⟩, .ok r)

/-- Translation of `RoutingTable.delete`. -/
def RoutingTable.delete (t : RoutingTable) (route_id : Nat) : RoutingTable :=
  ⟨removeFirst t.routes (fun p => p.2.route_id == route_id), t.src_address⟩

/-- Translation of `RoutingTable.get_all_gateway_info`. -/
def RoutingTable.get_all_gateway_info (t : RoutingTable) : List (Nat × Option Nat) :=
  t.routes.map (fun p => (p.2.gateway_ip, p.2.gateway_mac))

/-- The containment test inside the `RoutingTable.get_data` loop:
`ipv4_apply_mask(dst_ip, route.dst_netmask) == route.dst_ip`. -/
def matchesDst (d : Nat) (r : Route) : Bool :=
  r.dst_ip.eqAddr (ipv4_apply_mask d r.dst_netmask)

/-- The longest-prefix loop of `RoutingTable.get_data`: walk the routes
keeping the first route that strictly raises the best netmask seen so far
among routes whose prefix contains the destination; the accumulator
starts at (None, 0). -/
def lpmGo (d : Nat) : List ((Nat × Nat) × Route) → Option Route × Nat →
    Option Route × Nat
  | [], acc => acc
  | p :: l, acc =>
    if matchesDst d p.2 = true ∧ acc.2 < p.2.dst_netmask then
      lpmGo d l (some p.2, p.2.dst_netmask)
    else
      lpmGo d l acc

def lpmScan (routes : List ((Nat × Nat) × Route)) (dst_ip : Nat) :
    Option Route × Nat :=
  lpmGo dst_ip routes (none, 0)

/-- Translation of `RoutingTable.get_data`: by gateway MAC when given,
else longest-prefix match on the destination with fallback to the entry
stored under INADDR_ANY, else None. -/
def RoutingTable.get_data (t : RoutingTable) (gw_mac dst_ip : Option Nat) :
    Option Route :=
  match gw_mac with
  | some m => (t.routes.find? (fun p => p.2.gateway_mac == some m)).map (·.2)
  | none =>
    match dst_ip with
    | some d =>
      match (lpmScan t.routes d).1 with
      | some r => some r
      | none => (t.routes.find? (fun p => p.1 = INADDR_ANY_KEY)).map (·.2)
    | none => none

/-- Well-formedness of a RoutingTable as the program constructs it: the
dict keys are distinct and each key is the rendering of its route's
destination prefix (both facts hold by construction in
`RoutingTable.add`). -/
def RoutingTable.WF (t : RoutingTable) : Prop :=
  (t.routes.map Prod.fst).Nodup ∧
  ∀ p ∈ t.routes, p.1 = (p.2.dst_ip.toKeyNat, p.2.dst_netmask)

/-- Translation of `class PolicyRoutingTable`: source-CIDR key (pair form)
to RoutingTable; construction installs the any-source table and starts the
`route_id` counter at 1.  (The `dhcp_servers` list plays no role in the
claims and is omitted.) -/
structure PolicyRoutingTable where
  tables : List ((Nat × Nat) × RoutingTable)
  route_id : Nat
deriving DecidableEq

def PolicyRoutingTable.init : PolicyRoutingTable :=
  ⟨[(INADDR_ANY_KEY, ⟨[], none⟩)], 1⟩

/-- The table stored under INADDR_ANY (`self[INADDR_ANY]`); present in
every state the program constructs. -/
def PolicyRoutingTable.anyTable (p : PolicyRoutingTable) : RoutingTable :=
  ((p.tables.find? (fun q => q.1 = INADDR_ANY_KEY)).map (·.2)).getD ⟨[], none⟩

/-- The dict key under which `PolicyRoutingTable.add` files the route:
INADDR_ANY without a source qualifier, the source prefix otherwise. -/
def policyKey (src_address : Option Address) : Nat × Nat :=
  match src_address with
  | none => INADDR_ANY_KEY
  | some a => (a.nw_addr, a.netmask)

/-- The `if key not in self: self.add_table(key, src_address)` step of
`PolicyRoutingTable.add`: the table list after the lazy creation. -/
def lazyTables (tables : List ((Nat × Nat) × RoutingTable)) (key : Nat × Nat)
    (src_address : Option Address) : List ((Nat × Nat) × RoutingTable) :=
  if tables.any (fun q => q.1 = key) then tables
  else tables ++ [(key, ⟨[], src_address⟩)]

/-- Dict lookup `self[key]` on the table list (the default is never hit:
the key was just created when absent). -/
def tableAt (tables : List ((Nat × Nat) × RoutingTable)) (key : Nat × Nat)
    (src_address : Option Address) : RoutingTable :=
  ((tables.find? (fun q => q.1 = key)).map (·.2)).getD ⟨[], src_address⟩

/-- Translation of `PolicyRoutingTable.add`.  The source-qualified table
is created (appended) before the inner `RoutingTable.add` runs, so it
persists even when that call raises; the route_id counter advances only
on success, wrapping to 1 over the 32-bit range and skipping 0. -/
def PolicyRoutingTable.add (p : PolicyRoutingTable)
    (dst_nw_addr gateway_ip : String) (src_address : Option Address) :
    PolicyRoutingTable × Except PyErr Route :=
  match RoutingTable.add
      (tableAt (lazyTables p.tables (policyKey src_address) src_address)
        (policyKey src_address) src_address)
      dst_nw_addr gateway_ip p.route_id with
  | (_, .error e) =>
    (⟨lazyTables p.tables (policyKey src_address) src_address, p.route_id⟩, .error e)
  | (t2, .ok r) =>
    let rid1 := (p.route_id + 1) &&& UINT32_MAX
    (⟨dictInsert (lazyTables p.tables (policyKey src_address) src_address)
        (policyKey src_address) t2,
      if rid1 = COOKIE_DEFAULT_ID then 1 else rid1⟩, .ok r)

/-- Translation of `PolicyRoutingTable.delete`: remove the id from every
table. -/
def PolicyRoutingTable.delete (p : PolicyRoutingTable) (route_id : Nat) :
    PolicyRoutingTable :=
  ⟨p.tables.map (fun q => (q.1, q.2.delete route_id)), p.route_id⟩

/-- Translation of `PolicyRoutingTable.gc_subnet_tables`: drop empty
tables other than the any-source one. -/
def PolicyRoutingTable.gc_subnet_tables (p : PolicyRoutingTable) :
    PolicyRoutingTable :=
  ⟨p.tables.filter (fun q => q.1 = INADDR_ANY_KEY ∨ q.2.routes ≠ []), p.route_id⟩

/-- Translation of `PolicyRoutingTable.get_all_gateway_info`. -/
def PolicyRoutingTable.get_all_gateway_info (p : PolicyRoutingTable) :
    List (Nat × Option Nat) :=
  (p.tables.map (fun q => q.2.get_all_gateway_info)).flatten

/-- The table-selection test in the `PolicyRoutingTable.get_data` loop:
the table has a `src_address` and its prefix contains the source IP. -/
def matchSrc (s : Nat) (q : (Nat × Nat) × RoutingTable) : Bool :=
  match q.2.src_address with
  | none => false
  | some a => a.nw_addr == ipv4_apply_mask s a.netmask

/-- Translation of `PolicyRoutingTable.get_data`: when a source IP is
given, the first table whose `src_address` prefix contains it is chosen
(the any-source table otherwise); a miss in a chosen table that differs
from the any-source table (Python dict `!=`, i.e. content inequality of
the route dicts) retries against the any-source table. -/
def PolicyRoutingTable.get_data (p : PolicyRoutingTable)
    (gw_mac dst_ip src_ip : Option Nat) : Option Route :=
  let anyT := p.anyTable
  let desired :=
    match src_ip with
    | none => anyT
    | some s =>
      match p.tables.find? (matchSrc s) with
      | some q => q.2
      | none => anyT
  match desired.get_data gw_mac dst_ip with
  | some r => some r
  | none =>
    if desired.routes ≠ anyT.routes then anyT.get_data gw_mac dst_ip else none

/-! Priority computation (`get_priority`, app.py lines 210-240). -/

/-- The first argument of `get_priority`: either one of the numeric
PRIORITY_* constants or the marker string PRIORITY_TYPE_ROUTE together
with the route (the source asserts the route is present). -/
inductive PriorityArg where
  | num (n : Nat)
  | typeRoute (route : Route)

/-- Translation of `get_priority`.  Returns the priority and the log
message (the source returns a bare priority when the message is None and
a pair otherwise). -/
def get_priority (arg : PriorityArg) (vid : Nat) : Nat × Option String :=
  let step1 : Nat × Nat × Option String :=
    match arg with
    | .num n => (n, n, none)
    | .typeRoute route =>
      if route.dst_ip.truthy then
        let pt := if route.src_ip.truthy then PRIORITY_ADDRESSED_STATIC_ROUTING
                  else PRIORITY_STATIC_ROUTING
        (pt, pt + route.dst_netmask, some "static routing")
      else
        let pt := if route.src_ip.truthy then PRIORITY_ADDRESSED_DEFAULT_ROUTING
                  else PRIORITY_DEFAULT_ROUTING
        (pt, pt, some "default routing")
  let priority_type := step1.1
  let priority := step1.2.1
  let priority := if vid ≠ 0 ∨ priority_type = PRIORITY_IP_HANDLING then
    priority + PRIORITY_VLAN_SHIFT else priority
  let priority := if PRIORITY_ADDRESSED_STATIC_ROUTING < priority_type then
    priority + PRIORITY_NETMASK_SHIFT else priority
  (priority, step1.2.2)

/-- The static route of scenario S2: destination 192.168.5.0/24 via
gateway 10.0.0.254, no source qualifier (route_id 1). -/
def routeSlash24 : Route :=
  ⟨1, .str 3232236800, 24, 167772414, none, .intZero, 0⟩

/-- A coarser unqualified static route (10.0.0.0/8), for the witness. -/
def routeSlash8 : Route :=
  ⟨2, .str 167772160, 8, 167772414, none, .intZero, 0⟩

/-- A default route as `RoutingTable.add` stores it (int-0 destination),
for the witnesses. -/
def routeDefault : Route :=
  ⟨3, .intZero, 0, 167772414, none, .intZero, 0⟩

/-- A source Address 10.0.0.0/24 (router ip 10.0.0.1) for the witnesses. -/
def addrTen24 : Address := ⟨1, 167772160, 24, 167772161⟩

/-! The suspend-packet machinery and the per-VLAN router state
(SuspendPacket / SuspendPacketList / VlanRouter). -/

/-- Translation of `class SuspendPacket`: ingress port, the IPv4
destination taken from the header list, and the raw bytes (opaque). -/
structure SuspendPacket where
  in_port : Nat
  dst_ip : Nat
  data : Nat
deriving DecidableEq

/-- The per-VLAN router state the claims touch: the vlan id and the three
mutable containers of `VlanRouter.__init__`. -/
structure VRState where
  vlan_id : Nat
  address_data : AddressData
  policy_routing_tbl : PolicyRoutingTable
  packet_buffer : List SuspendPacket
deriving DecidableEq

/-- Translation of the container state set up by `VlanRouter.__init__`. -/
def VRState.init (vlan_id : Nat) : VRState :=
  ⟨vlan_id, AddressData.init, PolicyRoutingTable.init, []⟩

/-- Translation of `VlanRouter._packetin_to_node` for an IPv4 packet to a
non-router destination: drop immediately when the buffer already holds
MAX_SUSPENDPACKETS entries (before any other action, including the DHCP
flood); otherwise choose the send source (destination inside a local
Address, else a policy route whose gateway lies inside a local Address);
when one was chosen, enqueue the packet (keyed by the original IPv4
destination) and send the ARP request — the returned flag. -/
def packetin_to_node (vr : VRState) (in_port ip_src ip_dst data : Nat) :
    VRState × Bool :=
  if MAX_SUSPENDPACKETS ≤ vr.packet_buffer.length then (vr, false)
  else
    let chosen : Option (Nat × Nat) :=
      match vr.address_data.get_data_by_ip ip_dst with
      | some address => some (address.default_gw, ip_dst)
      | none =>
        match vr.policy_routing_tbl.get_data none (some ip_dst) (some ip_src) with
        | some route =>
          match vr.address_data.get_data_by_ip route.gateway_ip with
          | some gw_address => some (gw_address.default_gw, route.gateway_ip)
          | none => none
        | none => none
    match chosen with
    | some _ =>
      ({vr with packet_buffer := vr.packet_buffer ++ [⟨in_port, ip_dst, data⟩]},
       true)
    | none => (vr, false)

/-- Translation of `SuspendPacketList.get_data`. -/
def suspend_get_data (buf : List SuspendPacket) (dst_ip : Nat) :
    List SuspendPacket :=
  buf.filter (fun pkt => pkt.dst_ip == dst_ip)

/-- The ARP-reply branch of `VlanRouter._packetin_arp`: every suspended
packet whose dst_ip equals the ARP source is removed (timer cancelled)
and resubmitted, leaving the rest. -/
def arp_reply_dequeue (vr : VRState) (src_ip : Nat) : VRState :=
  {vr with packet_buffer :=
    vr.packet_buffer.filter (fun pkt => pkt.dst_ip != src_ip)}

/-- Translation of `SuspendPacketList.wait_arp_reply_timer` firing: when
the packet is still queued, the ICMP unreachable is emitted and the entry
removed; otherwise nothing happens. -/
def timer_expire (vr : VRState) (pkt : SuspendPacket) : VRState :=
  if pkt ∈ vr.packet_buffer then
    {vr with packet_buffer := vr.packet_buffer.erase pkt}
  else vr

/-- Translation of `SuspendPacketList.delete(del_addr=...)`: drop every
suspended packet whose destination lies in the deleted Address. -/
def suspend_delete_addr (buf : List SuspendPacket) (del_addr : Address) :
    List SuspendPacket :=
  buf.filter (fun pkt => ! del_addr.containsIp pkt.dst_ip)

/-! The address-deletion path (`VlanRouter._delete_address_data`). -/

/-- Flow stats as the deletion paths read them: cookie and priority. -/
structure FlowStats where
  cookie : Nat
  priority : Nat
deriving DecidableEq

/-- The loop of `VlanRouter._chk_addr_relation_route` over the gateway
infos; for a specific id the loop breaks with [id] as soon as some
route's gateway lies in the Address with that id, for REST "all" (none)
it collects the distinct ids. -/
def chkGo (ad : AddressData) (address_id : Option Nat) :
    List (Nat × Option Nat) → List Nat → List Nat
  | [], relate_list => relate_list
  | g :: l, relate_list =>
    match ad.get_data_by_ip g.1 with
    | none => chkGo ad address_id l relate_list
    | some address =>
      match address_id with
      | none =>
        if address.address_id ∈ relate_list then
          chkGo ad address_id l relate_list
        else
          chkGo ad address_id l (relate_list ++ [address.address_id])
      | some i =>
        if address.address_id = i then [i]
        else chkGo ad address_id l relate_list

/-- Translation of `VlanRouter._chk_addr_relation_route`; `none` stands
for the REST "all" argument. -/
def chk_addr_relation_route (vr : VRState) (address_id : Option Nat) :
    List Nat :=
  chkGo vr.address_data address_id
    vr.policy_routing_tbl.get_all_gateway_info []

/-- One iteration of the deletion loop of
`VlanRouter._delete_address_data`: delete the flow (recorded by the
caller), look the decoded address id up, and when present clean the
suspend buffer, delete the Address and record the id. -/
def delete_addr_step (acc : VRState × List Nat) (fs : FlowStats) :
    VRState × List Nat :=
  let aid := cookie_to_id .addressid fs.cookie
  match acc.1.address_data.get_data_by_id aid with
  | some del_address =>
    ({acc.1 with
        packet_buffer := suspend_delete_addr acc.1.packet_buffer del_address,
        address_data := acc.1.address_data.delete aid},
     if aid ∈ acc.2 then acc.2 else acc.2 ++ [aid])
  | none => acc

/-- Translation of `VlanRouter._delete_address_data` (the integer parse
of the REST argument happens in the caller; `none` is REST "all").
Returns the new state, the deleted flow entries, and the response message
(result, details) — `none` for the empty message. -/
def delete_address_data (vr : VRState) (address_id : Option Nat)
    (flows : List FlowStats) :
    VRState × List FlowStats × Option (String × String) :=
  let skip_ids := chk_addr_relation_route vr address_id
  let delete_list := flows.filter (fun st =>
    cookie_to_id .vlanid st.cookie == vr.vlan_id &&
    (if cookie_to_id .addressid st.cookie ∈ skip_ids then false
     else match address_id with
       | none => !(cookie_to_id .addressid st.cookie ≤ COOKIE_DEFAULT_ID ||
                   UINT16_MAX < cookie_to_id .addressid st.cookie)
       | some i => cookie_to_id .addressid st.cookie == i))
  let res := delete_list.foldl delete_addr_step (vr, [])
  let msg1 : Option (String × String) :=
    if res.2 ≠ [] then
      some ("success", "Delete address [address_id=" ++
        String.intercalate "," (res.2.map toString) ++ "]")
    else none
  let msg :=
    if skip_ids ≠ [] then
      match msg1 with
      | some md =>
        some (md.1, md.2 ++ ", " ++
          "Skip delete (related route exist) [address_id=" ++
          String.intercalate "," (skip_ids.map toString) ++ "]")
      | none =>
        some ("failure", "Skip delete (related route exist) [address_id=" ++
          String.intercalate "," (skip_ids.map toString) ++ "]")
    else msg1
  (res.1, delete_list, msg)

/-- The VlanRouter operations that touch the suspend buffer, plus a step
covering all other mutations (they change only the tables). -/
inductive VRStep : VRState → VRState → Prop where
  | packetin (vr : VRState) (in_port ip_src ip_dst data : Nat) :
      VRStep vr (packetin_to_node vr in_port ip_src ip_dst data).1
  | arp_reply (vr : VRState) (src_ip : Nat) :
      VRStep vr (arp_reply_dequeue vr src_ip)
  | timer (vr : VRState) (pkt : SuspendPacket) :
      VRStep vr (timer_expire vr pkt)
  | addr_delete (vr : VRState) (address_id : Option Nat)
      (flows : List FlowStats) :
      VRStep vr (delete_address_data vr address_id flows).1
  | tables (vr : VRState) (ad : AddressData) (pt : PolicyRoutingTable) :
      VRStep vr {vr with address_data := ad, policy_routing_tbl := pt}

/-- VlanRouter states reachable from construction. -/
inductive VRReachable : VRState → Prop where
  | init (vlan_id : Nat) : VRReachable (VRState.init vlan_id)
  | step (s s2 : VRState) (h : VRReachable s) (hs : VRStep s s2) :
      VRReachable s2

/-- A full suspend buffer over an address state holding 10.0.0.1/24, for
the C3 witness. -/
def vrFull : VRState :=
  ⟨0, adOneAddr, PolicyRoutingTable.init,
    [⟨1, 167772165, 7⟩, ⟨1, 167772165, 7⟩, ⟨1, 167772165, 7⟩]⟩

/-- A VlanRouter state whose default route's gateway (10.0.0.254) lies
inside the single Address 10.0.0.0/24 (address_id 1), for the C7
witness. -/
def vrWithRoute : VRState :=
  ⟨0, adOneAddr,
    PolicyRoutingTable.mk [(INADDR_ANY_KEY, ⟨[((0, 0), routeDefault)], none⟩)] 2,
    []⟩

/-! The stats request/reply coordination
(`OfCtl.send_stats_request` / `Plexus._stats_reply_handler`). -/

/-- One stats reply message as the handler sees it: datapath id, xid, the
message (opaque) and whether this is the final fragment (the negation of
the REPLY_MORE flag). -/
structure StatsReplyEvent where
  dp_id : Nat
  xid : Nat
  msg : Nat
  final : Bool
deriving DecidableEq

/-- The shared waiters map, flattened to (datapath id, xid) keys; each
entry holds the reply messages collected so far (the event object is
implicit: removing the entry is paired with setting the event). -/
abbrev Waiters : Type := List ((Nat × Nat) × List Nat)

/-- Translation of `Plexus._stats_reply_handler` acting during the wait
for (dp_id, xid): an unknown (dp, xid) is ignored; otherwise the message
is appended (tracked in the collected list when it is the awaited xid:
the Python list object is shared) and, when the more-fragments flag is
clear, the entry is removed and the event set (the done flag). -/
def statsWaitStep (dp_id xid : Nat) (st : Waiters × List Nat × Bool)
    (ev : StatsReplyEvent) : Waiters × List Nat × Bool :=
  match st.1.find? (fun q => q.1 = (ev.dp_id, ev.xid)) with
  | none => st
  | some _ =>
    let isOurs : Bool := ev.dp_id == dp_id && ev.xid == xid
    let collected := if isOurs then st.2.1 ++ [ev.msg] else st.2.1
    if ev.final then
      (st.1.filter (fun q => q.1 ≠ (ev.dp_id, ev.xid)), collected,
       st.2.2 || isOurs)
    else
      (st.1.map (fun q =>
        if q.1 = (ev.dp_id, ev.xid) then (q.1, q.2 ++ [ev.msg]) else q),
       collected, st.2.2)

/-- Translation of `OfCtl.send_stats_request`: create the waiters entry
under a fresh xid, send, then wait at most OFP_REPLY_TIMER seconds while
reply events are handled; when no final reply for this xid arrived in
time (timeout), delete the xid entry and return whatever was
collected. -/
def send_stats_request (w : Waiters) (dp_id xid : Nat)
    (events : List StatsReplyEvent) : Waiters × List Nat :=
  let res := events.foldl (statsWaitStep dp_id xid)
    (dictInsert w (dp_id, xid) [], [], false)
  if res.2.2 then (res.1, res.2.1)
  else (res.1.filter (fun q => q.1 ≠ (dp_id, xid)), res.2.1)

/-! The per-switch Router aggregate (`class Router`). -/

/-- The Router's vlan_id → VlanRouter dict. -/
abbrev RouterState : Type := List (Nat × VRState)

/-- Translation of `Router.__init__`: the VLANID_NONE VlanRouter is
installed at construction. -/
def routerInit : RouterState := [(VLANID_NONE, VRState.init VLANID_NONE)]

/-- Translation of `Router._del_vlan_router`: VLANID_NONE returns
immediately; otherwise the empty source-qualified tables are collected
first, then the VlanRouter is destroyed exactly when it has no addresses
and only an empty any-source routing table. -/
def del_vlan_router (r : RouterState) (vlan_id : Nat) : RouterState :=
  if vlan_id = VLANID_NONE then r
  else
    match r.find? (fun q => q.1 = vlan_id) with
    | none => r
    | some qv =>
      let vr2 : VRState := {qv.2 with
        policy_routing_tbl := qv.2.policy_routing_tbl.gc_subnet_tables}
      if vr2.address_data.addresses = [] ∧
          vr2.policy_routing_tbl.tables.length = 1 ∧
          vr2.policy_routing_tbl.anyTable.routes = [] then
        r.filter (fun q => q.1 ≠ vlan_id)
      else
        r.map (fun q => if q.1 = vlan_id then (vlan_id, vr2) else q)

/-- The operations `Router.set_data` / `Router.delete_data` perform on
the dict: insert a fresh VlanRouter for a validated new vid, mutate a
VlanRouter in place (abstracted: any new inner state), or run
`_del_vlan_router`. -/
inductive RouterStep : RouterState → RouterState → Prop where
  | add_vlan (r : RouterState) (vid : Nat)
      (hvid : vid = VLANID_NONE ∨ (VLANID_MIN ≤ vid ∧ vid ≤ VLANID_MAX))
      (hnew : r.find? (fun q => q.1 = vid) = none) :
      RouterStep r (r ++ [(vid, VRState.init vid)])
  | inner (r : RouterState) (vid : Nat) (vr2 : VRState) :
      RouterStep r (r.map (fun q => if q.1 = vid then (vid, vr2) else q))
  | del (r : RouterState) (vid : Nat) : RouterStep r (del_vlan_router r vid)

/-- Router dict states reachable from construction. -/
inductive RouterReachable : RouterState → Prop where
  | init : RouterReachable routerInit
  | step (r r2 : RouterState) (h : RouterReachable r)
      (hs : RouterStep r r2) : RouterReachable r2

/-! From here on: lemmas and the claim theorems. -/

theorem uint32_max_eq : UINT32_MAX = 2 ^ 32 - 1 := by decide

theorem cookie_vlanid_roundtrip (w v : Nat) :
    cookie_to_id .vlanid (id_to_cookie w .vlanid v) = v := by
  simp only [cookie_to_id, id_to_cookie, COOKIE_SHIFT_VLANID,
    Nat.shiftLeft_eq, Nat.shiftRight_eq_div_pow]
  exact Nat.mul_div_cancel v (by positivity)

theorem cookie_addressid_roundtrip (vlan_id a : Nat) (ha : a < 2 ^ 32) :
    cookie_to_id .addressid (id_to_cookie vlan_id .addressid a) = a := by
  simp only [cookie_to_id, id_to_cookie, uint32_max_eq, COOKIE_SHIFT_VLANID,
    Nat.shiftLeft_eq]
  rw [Nat.and_pow_two_sub_one_eq_mod]
  omega

theorem cookie_routeid_roundtrip (vlan_id r : Nat) (hr : r < 2 ^ 16) :
    cookie_to_id .routeid (id_to_cookie vlan_id .routeid r) = r := by
  simp only [cookie_to_id, id_to_cookie, uint32_max_eq, COOKIE_SHIFT_VLANID,
    COOKIE_SHIFT_ROUTEID, Nat.shiftLeft_eq, Nat.shiftRight_eq_div_pow]
  rw [Nat.and_pow_two_sub_one_eq_mod]
  have h1 : r * 2 ^ 16 < 2 ^ 32 := by
    calc r * 2 ^ 16 < 2 ^ 16 * 2 ^ 16 := Nat.mul_lt_mul_of_lt_of_le hr le_rfl (by norm_num)
    _ = 2 ^ 32 := by norm_num
  omega

theorem mask_ntob_eq (m : Nat) (hm : m ≤ 32) :
    mask_ntob m = 2 ^ 32 - 2 ^ (32 - m) := by
  rw [mask_ntob, uint32_max_eq, Nat.shiftLeft_eq, Nat.and_pow_two_sub_one_eq_mod]
  have h1 : (2 ^ 32 - 1) * 2 ^ (32 - m)
      = 2 ^ 32 * (2 ^ (32 - m) - 1) + (2 ^ 32 - 2 ^ (32 - m)) := by
    have h2 : 2 ^ (32 - m) ≤ 2 ^ 32 := Nat.pow_le_pow_right (by norm_num) (by omega)
    have h3 : 1 ≤ 2 ^ (32 - m) := Nat.one_le_two_pow
    have h4 : 2 ^ 32 * 1 ≤ 2 ^ 32 * 2 ^ (32 - m) := by
      exact Nat.mul_le_mul_left _ h3
    rw [Nat.sub_one_mul, Nat.mul_sub_one]
    omega
  rw [h1, Nat.mul_add_mod]
  have h5 : 2 ^ (32 - m) ≤ 2 ^ 32 := Nat.pow_le_pow_right (by norm_num) (by omega)
  have h6 : 1 ≤ 2 ^ (32 - m) := Nat.one_le_two_pow
  exact Nat.mod_eq_of_lt (by omega)

theorem ipv4_apply_mask_eq (a m : Nat) (ha : a < 2 ^ 32) (hm : m ≤ 32) :
    ipv4_apply_mask a m = maskAlign a m := by
  rw [ipv4_apply_mask, mask_ntob_eq m hm, maskAlign]
  set j := 32 - m with hj
  have hj32 : j ≤ 32 := by omega
  have hpow : (2 : Nat) ^ (32 - j) * 2 ^ j = 2 ^ 32 := by
    rw [← Nat.pow_add]
    congr 1
    omega
  have hmask : 2 ^ 32 - 2 ^ j = (2 ^ (32 - j) - 1) <<< j := by
    rw [Nat.shiftLeft_eq, Nat.sub_one_mul, hpow]
  have hdiv : a / 2 ^ j * 2 ^ j = (a >>> j) <<< j := by
    rw [Nat.shiftRight_eq_div_pow, Nat.shiftLeft_eq]
  rw [hmask, hdiv]
  apply Nat.eq_of_testBit_eq
  intro i
  rw [Nat.testBit_and, Nat.testBit_shiftLeft, Nat.testBit_shiftLeft,
    Nat.testBit_shiftRight, Nat.testBit_two_pow_sub_one]
  by_cases hij : j ≤ i
  · by_cases hi32 : i < 32
    · have : i - j < 32 - j := by omega
      simp [hij, this, Nat.add_sub_cancel' hij]
    · have h1 : a.testBit i = false := Nat.testBit_lt_two_pow
        (lt_of_lt_of_le ha (Nat.pow_le_pow_right (by norm_num) (by omega)))
      have h2 : a.testBit (j + (i - j)) = false := by
        rwa [Nat.add_sub_cancel' hij]
      simp [h1, h2]
  · simp [hij]

theorem maskAlign_le (a m : Nat) : maskAlign a m ≤ a :=
  Nat.div_mul_le_self a _

theorem maskAlign_lt (a m : Nat) (ha : a < 2 ^ 32) : maskAlign a m < 2 ^ 32 :=
  lt_of_le_of_lt (maskAlign_le a m) ha

theorem maskAlign_full (a : Nat) : maskAlign a 32 = a := by
  simp [maskAlign]

theorem maskAlign_zero (a : Nat) (ha : a < 2 ^ 32) : maskAlign a 0 = 0 := by
  have h : a / 2 ^ (32 - 0) = 0 := Nat.div_eq_of_lt (by simpa using ha)
  rw [maskAlign, h, Nat.zero_mul]

/-- Composing two alignments keeps only the coarser prefix. -/
theorem maskAlign_maskAlign (a m n : Nat) :
    maskAlign (maskAlign a m) n = maskAlign a (min m n) := by
  rcases le_total m n with h | h
  · -- the second mask is at least as fine: the value is already aligned
    rw [min_eq_left h, maskAlign, maskAlign]
    have hdvd : 2 ^ (32 - n) ∣ a / 2 ^ (32 - m) * 2 ^ (32 - m) :=
      Dvd.dvd.mul_left (pow_dvd_pow 2 (by omega)) _
    rw [Nat.div_mul_cancel hdvd]
  · -- the second mask is coarser
    rw [min_eq_right h]
    have hsplit : (2 : Nat) ^ (32 - n) = 2 ^ (32 - m) * 2 ^ ((32 - n) - (32 - m)) := by
      rw [← Nat.pow_add]
      congr 1
      omega
    rw [maskAlign, maskAlign, maskAlign, hsplit]
    congr 1
    have hp : 0 < (2 : Nat) ^ (32 - m) := by positivity
    calc a / 2 ^ (32 - m) * 2 ^ (32 - m) / (2 ^ (32 - m) * 2 ^ ((32 - n) - (32 - m)))
        = 2 ^ (32 - m) * (a / 2 ^ (32 - m)) / (2 ^ (32 - m) * 2 ^ ((32 - n) - (32 - m))) := by
          rw [Nat.mul_comm]
      _ = a / 2 ^ (32 - m) / 2 ^ ((32 - n) - (32 - m)) := by
          rw [Nat.mul_div_mul_left _ _ hp]
      _ = a / (2 ^ (32 - m) * 2 ^ ((32 - n) - (32 - m))) := by
          rw [Nat.div_div_eq_div_mul]

theorem maskAlign_idem (a m : Nat) : maskAlign (maskAlign a m) m = maskAlign a m := by
  rw [maskAlign_maskAlign, min_self]

/-! Claim C2: cookie round-trip. -/

/-- C2 counterexample: the claim asserts the route-id round-trip for every
value the allocator can assign, i.e. all of 1..2^32-1, but already at
route_id = 65536 = 2^16 the decoder returns 0: the encoder shifts the id
into bits 16.. while the decoder keeps only bits 16..31 of the cookie. -/
theorem C2_cookie_roundtrip_cex :
    1 ≤ 65536 ∧ 65536 ≤ UINT32_MAX ∧
    cookie_to_id .routeid (id_to_cookie 0 .routeid 65536) = 0 := by
  refine ⟨by norm_num, by norm_num [UINT32_MAX], ?_⟩
  decide

/-- C2 (amended): the round-trip holds for every legal vlan_id, for every
address_id in 1..2^32-1, and for route_id only in the 16-bit range
1..2^16-1 that fits the cookie's route field. -/
theorem C2_cookie_roundtrip_amended (vid a r : Nat)
    (hvid : vid = VLANID_NONE ∨ (VLANID_MIN ≤ vid ∧ vid ≤ VLANID_MAX))
    (ha : 1 ≤ a ∧ a ≤ UINT32_MAX) (hr : 1 ≤ r ∧ r ≤ UINT16_MAX) :
    cookie_to_id .vlanid (id_to_cookie vid .vlanid vid) = vid ∧
    cookie_to_id .addressid (id_to_cookie vid .addressid a) = a ∧
    cookie_to_id .routeid (id_to_cookie vid .routeid r) = r := by
  refine ⟨cookie_vlanid_roundtrip vid vid, ?_, ?_⟩
  · exact cookie_addressid_roundtrip vid a
      (by have := ha.2; rw [uint32_max_eq] at this; omega)
  · exact cookie_routeid_roundtrip vid r
      (by have := hr.2; simp only [UINT16_MAX] at this; omega)

/-- C2 witness: a concrete legal triple for the amended round-trip. -/
theorem C2_cookie_roundtrip_witness :
    cookie_to_id .vlanid (id_to_cookie 2 .vlanid 2) = 2 ∧
    cookie_to_id .addressid (id_to_cookie 2 .addressid 5) = 5 ∧
    cookie_to_id .routeid (id_to_cookie 2 .routeid 7) = 7 :=
  C2_cookie_roundtrip_amended 2 5 7 (Or.inr (by decide)) (by decide) (by decide)

/-! Claim C6: route priority formula. -/

/-- C6: for route rules `get_priority` returns base + dst_netmask for
static routes (base 3 unqualified, 4 source-qualified) and the bare base
for default routes (1 unqualified, 2 source-qualified), plus 1000 exactly
when the vlan id is nonzero and never the +32 netmask shift; hence a /24
static route on VLAN-none gets 27, a longer prefix outranks a shorter one
of the same class, source-qualified outranks unqualified at equal prefix
length, and any static route outranks any default route. -/
theorem C6_route_priority (r r2 : Route) (vid : Nat) :
    ((get_priority (.typeRoute r) vid).1 =
      (if r.dst_ip.truthy then
        (if r.src_ip.truthy then PRIORITY_ADDRESSED_STATIC_ROUTING
         else PRIORITY_STATIC_ROUTING) + r.dst_netmask
       else
        (if r.src_ip.truthy then PRIORITY_ADDRESSED_DEFAULT_ROUTING
         else PRIORITY_DEFAULT_ROUTING))
      + (if vid ≠ 0 then PRIORITY_VLAN_SHIFT else 0)) ∧
    (get_priority (.typeRoute routeSlash24) 0).1 = 27 ∧
    (r.dst_ip.truthy = true → r2.dst_ip.truthy = true →
      r.src_ip.truthy = r2.src_ip.truthy → r2.dst_netmask < r.dst_netmask →
      (get_priority (.typeRoute r2) vid).1 < (get_priority (.typeRoute r) vid).1) ∧
    (r.dst_ip.truthy = true → r2.dst_ip.truthy = true →
      r.src_ip.truthy = true → r2.src_ip.truthy = false →
      r.dst_netmask = r2.dst_netmask →
      (get_priority (.typeRoute r2) vid).1 < (get_priority (.typeRoute r) vid).1) ∧
    (r.dst_ip.truthy = true → r2.dst_ip.truthy = false →
      (get_priority (.typeRoute r2) vid).1 < (get_priority (.typeRoute r) vid).1) := by
  have key : ∀ (x : Route),
      (get_priority (.typeRoute x) vid).1 =
      (if x.dst_ip.truthy then
        (if x.src_ip.truthy then PRIORITY_ADDRESSED_STATIC_ROUTING
         else PRIORITY_STATIC_ROUTING) + x.dst_netmask
       else
        (if x.src_ip.truthy then PRIORITY_ADDRESSED_DEFAULT_ROUTING
         else PRIORITY_DEFAULT_ROUTING))
      + (if vid ≠ 0 then PRIORITY_VLAN_SHIFT else 0) := by
    intro x
    cases hdst : x.dst_ip.truthy <;> cases hsrc : x.src_ip.truthy <;>
      by_cases hv : vid = 0 <;>
      simp [get_priority, hdst, hsrc, hv, PRIORITY_ADDRESSED_STATIC_ROUTING,
        PRIORITY_STATIC_ROUTING, PRIORITY_ADDRESSED_DEFAULT_ROUTING,
        PRIORITY_DEFAULT_ROUTING, PRIORITY_IP_HANDLING, PRIORITY_VLAN_SHIFT]
  refine ⟨key r, by decide, ?_, ?_, ?_⟩
  · intro h1 h2 h3 h4
    rw [key r, key r2, h1, h2, h3]
    cases hs : r2.src_ip.truthy <;>
      simp [PRIORITY_ADDRESSED_STATIC_ROUTING, PRIORITY_STATIC_ROUTING] <;> omega
  · intro h1 h2 h3 h4 h5
    rw [key r, key r2, h1, h2, h3, h4, h5]
    simp [PRIORITY_ADDRESSED_STATIC_ROUTING, PRIORITY_STATIC_ROUTING]
  · intro h1 h2
    rw [key r, key r2, h1, h2]
    cases hs : r.src_ip.truthy <;> cases hs2 : r2.src_ip.truthy <;>
      simp [PRIORITY_ADDRESSED_STATIC_ROUTING, PRIORITY_STATIC_ROUTING,
        PRIORITY_ADDRESSED_DEFAULT_ROUTING, PRIORITY_DEFAULT_ROUTING] <;> omega

/-- C6 witness: concrete instances discharging each hypothesis of the
comparison conjuncts. -/
theorem C6_route_priority_witness :
    (get_priority (.typeRoute routeSlash24) 0).1 = 27 ∧
    (get_priority (.typeRoute routeSlash8) 0).1 <
      (get_priority (.typeRoute routeSlash24) 0).1 :=
  ⟨(C6_route_priority routeSlash24 routeSlash24 0).2.1,
   (C6_route_priority routeSlash24 routeSlash8 0).2.2.1 rfl rfl rfl (by decide)⟩

/-! Claim C1: longest-prefix match. -/

theorem matchesDst_dst_eq {d : Nat} {r : Route} (h : matchesDst d r = true) :
    r.dst_ip = .str (ipv4_apply_mask d r.dst_netmask) := by
  cases hv : r.dst_ip with
  | intZero =>
    rw [matchesDst, hv] at h
    exact absurd h (by simp [IpVal.eqAddr])
  | str v =>
    rw [matchesDst, hv] at h
    simp only [IpVal.eqAddr, beq_iff_eq] at h
    rw [h]

/-- Loop invariant of the longest-prefix scan: starting from a legal
accumulator, a None result means nothing qualified and the accumulator
survived, and a Some result is a qualifying route whose netmask bounds
every qualifying netmask seen. -/
theorem lpmGo_spec (d : Nat) (l : List ((Nat × Nat) × Route))
    (acc : Option Route × Nat)
    (hacc : (acc.1 = none ∧ acc.2 = 0) ∨
      ∃ r0, acc.1 = some r0 ∧ matchesDst d r0 = true ∧ acc.2 = r0.dst_netmask ∧
        0 < r0.dst_netmask) :
    ((lpmGo d l acc).1 = none →
      lpmGo d l acc = acc ∧
      ∀ p ∈ l, ¬(matchesDst d p.2 = true ∧ 0 < p.2.dst_netmask)) ∧
    (∀ r, (lpmGo d l acc).1 = some r →
      matchesDst d r = true ∧ (lpmGo d l acc).2 = r.dst_netmask ∧
      0 < r.dst_netmask ∧ acc.2 ≤ r.dst_netmask ∧
      (∀ p ∈ l, matchesDst d p.2 = true → p.2.dst_netmask ≤ r.dst_netmask) ∧
      (acc.1 = some r ∨ ∃ p ∈ l, p.2 = r)) := by
  induction l generalizing acc with
  | nil =>
    refine ⟨fun _ => ⟨rfl, by simp⟩, fun r hr => ?_⟩
    simp only [lpmGo] at hr
    rcases hacc with ⟨h1, _⟩ | ⟨r0, h1, h2, h3, h4⟩
    · rw [h1] at hr; cases hr
    · rw [h1] at hr
      injection hr with hr
      subst hr
      exact ⟨h2, h3, by omega, by omega, by simp, Or.inl h1⟩
  | cons p l ih =>
    by_cases hc : matchesDst d p.2 = true ∧ acc.2 < p.2.dst_netmask
    · have heq : lpmGo d (p :: l) acc = lpmGo d l (some p.2, p.2.dst_netmask) := by
        simp only [lpmGo, if_pos hc]
      have hacc2 : ((some p.2, p.2.dst_netmask) : Option Route × Nat).1 = none ∧
          ((some p.2, p.2.dst_netmask) : Option Route × Nat).2 = 0 ∨
          ∃ r0, ((some p.2, p.2.dst_netmask) : Option Route × Nat).1 = some r0 ∧
            matchesDst d r0 = true ∧
            ((some p.2, p.2.dst_netmask) : Option Route × Nat).2 = r0.dst_netmask ∧
            0 < r0.dst_netmask :=
        Or.inr ⟨p.2, rfl, hc.1, rfl, by omega⟩
      have IH := ih (some p.2, p.2.dst_netmask) hacc2
      constructor
      · intro hnone
        rw [heq] at hnone
        have := (IH.1 hnone).1
        rw [this] at hnone
        cases hnone
      · intro r hr
        rw [heq] at hr
        obtain ⟨m1, m2, m3, m4, m5, m6⟩ := IH.2 r hr
        refine ⟨m1, by rw [heq]; exact m2, m3, le_trans (le_of_lt hc.2) m4, ?_, ?_⟩
        · intro q hq hmq
          rcases List.mem_cons.mp hq with rfl | hq
          · exact m4
          · exact m5 q hq hmq
        · rcases m6 with h6 | ⟨q, hq, hq2⟩
          · injection h6 with h6
            exact Or.inr ⟨p, List.mem_cons_self p l, h6⟩
          · exact Or.inr ⟨q, List.mem_cons_of_mem p hq, hq2⟩
    · have heq : lpmGo d (p :: l) acc = lpmGo d l acc := by
        simp only [lpmGo, if_neg hc]
      have IH := ih acc hacc
      constructor
      · intro hnone
        rw [heq] at hnone
        obtain ⟨he, hall⟩ := IH.1 hnone
        have haccn : acc.1 = none ∧ acc.2 = 0 := by
          rcases hacc with h | ⟨r0, h1, _, _, _⟩
          · exact h
          · rw [he, h1] at hnone; cases hnone
        refine ⟨by rw [heq]; exact he, ?_⟩
        intro q hq
        rcases List.mem_cons.mp hq with rfl | hq
        · intro ⟨hm, hmask⟩
          exact hc ⟨hm, by omega⟩
        · exact hall q hq
      · intro r hr
        rw [heq] at hr
        obtain ⟨m1, m2, m3, m4, m5, m6⟩ := IH.2 r hr
        refine ⟨m1, by rw [heq]; exact m2, m3, m4, ?_, ?_⟩
        · intro q hq hmq
          rcases List.mem_cons.mp hq with rfl | hq
          · have : ¬ acc.2 < q.2.dst_netmask := fun hlt => hc ⟨hmq, hlt⟩
            omega
          · exact m5 q hq hmq
        · rcases m6 with h6 | ⟨q, hq, hq2⟩
          · exact Or.inl h6
          · exact Or.inr ⟨q, List.mem_cons_of_mem p hq, hq2⟩

/-- With no source IP and no gateway MAC the policy lookup is exactly the
any-source table's lookup (the fallback comparison is against the same
table, so it never fires). -/
theorem policy_get_data_no_src (p : PolicyRoutingTable) (gm di : Option Nat) :
    p.get_data gm di none = p.anyTable.get_data gm di := by
  rw [PolicyRoutingTable.get_data]
  cases h : p.anyTable.get_data gm di <;> simp [h]

/-- C1: with only a destination given, `PolicyRoutingTable.get_data`
looks in the any-source table and returns the route whose prefix contains
the destination with the maximal netmask among routes of netmask at least
1; when no such route exists it returns the entry stored under the
"0.0.0.0/0" key if present and None otherwise, so a mask-0 entry matches
only as the default route. -/
theorem C1_longest_prefix_match (p : PolicyRoutingTable) (d : Nat)
    (hwf : p.anyTable.WF) :
    ((∃ q ∈ p.anyTable.routes, matchesDst d q.2 = true ∧ 1 ≤ q.2.dst_netmask) →
      ∃ r, p.get_data none (some d) none = some r ∧
        matchesDst d r = true ∧ 1 ≤ r.dst_netmask ∧
        (∀ q ∈ p.anyTable.routes, matchesDst d q.2 = true →
          q.2.dst_netmask ≤ r.dst_netmask) ∧
        (∀ q ∈ p.anyTable.routes, matchesDst d q.2 = true →
          q.2.dst_netmask = r.dst_netmask → q.2 = r)) ∧
    ((¬ ∃ q ∈ p.anyTable.routes, matchesDst d q.2 = true ∧ 1 ≤ q.2.dst_netmask) →
      p.get_data none (some d) none =
        (p.anyTable.routes.find? (fun q => q.1 = INADDR_ANY_KEY)).map (·.2)) := by
  have hbase : ((none, 0) : Option Route × Nat).1 = none ∧
      ((none, 0) : Option Route × Nat).2 = 0 ∨
      ∃ r0, ((none, 0) : Option Route × Nat).1 = some r0 ∧ matchesDst d r0 = true ∧
        ((none, 0) : Option Route × Nat).2 = r0.dst_netmask ∧ 0 < r0.dst_netmask :=
    Or.inl ⟨rfl, rfl⟩
  have hspec := lpmGo_spec d p.anyTable.routes (none, 0) hbase
  rw [policy_get_data_no_src]
  constructor
  · rintro ⟨q, hq, hmq, hmaskq⟩
    cases hres : (lpmGo d p.anyTable.routes (none, 0)).1 with
    | none =>
      exact absurd ⟨hmq, by omega⟩ ((hspec.1 hres).2 q hq)
    | some r =>
      obtain ⟨m1, m2, m3, m4, m5, m6⟩ := hspec.2 r hres
      have hget : p.anyTable.get_data none (some d) = some r := by
        rw [RoutingTable.get_data]
        simp only [lpmScan, hres]
      refine ⟨r, hget, m1, by omega, m5, ?_⟩
      intro q2 hq2 hmq2 hmask2
      rcases m6 with h6 | ⟨pr, hpr, hpr2⟩
      · cases h6
      · have hkq2 : q2.1 = (q2.2.dst_ip.toKeyNat, q2.2.dst_netmask) := hwf.2 q2 hq2
        have hkpr : pr.1 = (pr.2.dst_ip.toKeyNat, pr.2.dst_netmask) := hwf.2 pr hpr
        have hdq2 := matchesDst_dst_eq hmq2
        have hdr := matchesDst_dst_eq m1
        have hkeys : q2.1 = pr.1 := by
          rw [hkq2, hkpr, hpr2, hdq2, hdr, hmask2]
        have := List.inj_on_of_nodup_map hwf.1 hq2 hpr hkeys
        rw [this, hpr2]
  · intro hno
    cases hres : (lpmGo d p.anyTable.routes (none, 0)).1 with
    | none =>
      rw [RoutingTable.get_data]
      simp only [lpmScan, hres]
    | some r =>
      obtain ⟨m1, _, m3, _, _, _⟩ := hspec.2 r hres
      obtain ⟨_, _, m6⟩ := hspec.2 r hres
      rcases (hspec.2 r hres).2.2.2.2.2 with h6 | ⟨pr, hpr, hpr2⟩
      · cases h6
      · exact absurd ⟨pr, hpr, by rw [hpr2]; exact m1, by rw [hpr2]; omega⟩ hno

/-- C1 witness: a concrete policy table with a /24 route, a /16 route and
a default route; the lookup picks the /24. -/
theorem C1_longest_prefix_match_witness :
    ∃ r, (PolicyRoutingTable.mk
      [(INADDR_ANY_KEY, ⟨[((3232236800, 24), routeSlash24),
        ((167772160, 8), routeSlash8), ((0, 0), routeDefault)], none⟩)] 4).get_data
      none (some 3232236805) none = some r ∧ r.route_id = 1 := by
  obtain ⟨r, hr, hm, _, _, _⟩ :=
    (C1_longest_prefix_match (PolicyRoutingTable.mk
      [(INADDR_ANY_KEY, ⟨[((3232236800, 24), routeSlash24),
        ((167772160, 8), routeSlash8), ((0, 0), routeDefault)], none⟩)] 4)
      3232236805 (by constructor <;> decide)).1
      ⟨((3232236800, 24), routeSlash24), by decide, by decide, by decide⟩
  refine ⟨r, hr, ?_⟩
  have : r = routeSlash24 := by
    have hcalc : (PolicyRoutingTable.mk
      [(INADDR_ANY_KEY, ⟨[((3232236800, 24), routeSlash24),
        ((167772160, 8), routeSlash8), ((0, 0), routeDefault)], none⟩)] 4).get_data
      none (some 3232236805) none = some routeSlash24 := by decide
    rw [hcalc] at hr
    injection hr with hr
    exact hr.symm
  rw [this]
  decide

/-! Claim C5: policy-table selection and fallback. -/

theorem find?_eq_of_unique {α : Type} (f : α → Bool) (l : List α) (q : α)
    (hq : q ∈ l) (hfq : f q = true)
    (huniq : ∀ x ∈ l, f x = true → x = q) : l.find? f = some q := by
  induction l with
  | nil => cases hq
  | cons x t ih =>
    cases hfx : f x with
    | true =>
      rw [List.find?_cons_of_pos _ hfx]
      rw [huniq x (List.mem_cons_self x t) hfx]
    | false =>
      rw [List.find?_cons_of_neg _ (by simp [hfx])]
      have hqt : q ∈ t := by
        rcases List.mem_cons.mp hq with rfl | h
        · rw [hfq] at hfx; cases hfx
        · exact h
      exact ih hqt (fun x2 hx2 hf2 => huniq x2 (List.mem_cons_of_mem x hx2) hf2)

/-- The result of `RoutingTable.get_data` depends only on the stored
routes, not on the `src_address` attribute (which Python dict equality
also ignores). -/
theorem get_data_routes_only (t t2 : RoutingTable) (h : t.routes = t2.routes)
    (gm di : Option Nat) : t.get_data gm di = t2.get_data gm di := by
  rw [RoutingTable.get_data.eq_def, RoutingTable.get_data.eq_def, h]

/-- C5: with a source IP given, the lookup happens in the (unique)
source-qualified table whose `src_address` prefix contains it, falling
back to the any-source table when that table yields nothing; when no
source table matches, the any-source table is consulted directly. -/
theorem C5_policy_selection_fallback (p : PolicyRoutingTable) (s : Nat)
    (gm di : Option Nat) :
    (∀ q ∈ p.tables, matchSrc s q = true →
      (∀ q2 ∈ p.tables, matchSrc s q2 = true → q2 = q) →
      (∀ r, q.2.get_data gm di = some r → p.get_data gm di (some s) = some r) ∧
      (q.2.get_data gm di = none →
        p.get_data gm di (some s) = p.anyTable.get_data gm di)) ∧
    ((∀ q ∈ p.tables, matchSrc s q = false) →
      p.get_data gm di (some s) = p.anyTable.get_data gm di) := by
  constructor
  · intro q hq hm huniq
    have hfind : p.tables.find? (matchSrc s) = some q :=
      find?_eq_of_unique _ _ q hq hm huniq
    constructor
    · intro r hr
      rw [PolicyRoutingTable.get_data]
      simp only [hfind, hr]
    · intro hr
      rw [PolicyRoutingTable.get_data]
      simp only [hfind, hr]
      by_cases hroutes : q.2.routes ≠ p.anyTable.routes
      · simp [hroutes]
      · push_neg at hroutes
        have hsame := get_data_routes_only q.2 p.anyTable hroutes gm di
        rw [hr] at hsame
        simp [hroutes, ← hsame]
  · intro hall
    have hfind : p.tables.find? (matchSrc s) = none :=
      List.find?_eq_none.mpr (fun x hx => by simp [hall x hx])
    rw [PolicyRoutingTable.get_data]
    simp only [hfind]
    cases hres : p.anyTable.get_data gm di <;> simp [hres]

/-- C5 witness: a policy table holding an empty source-qualified table
for 10.0.0.0/24 and a default route in the any-source table; the lookup
for a source inside 10.0.0.0/24 falls back to the any-source table. -/
theorem C5_policy_selection_fallback_witness :
    (PolicyRoutingTable.mk
      [(INADDR_ANY_KEY, ⟨[((0, 0), routeDefault)], none⟩),
       ((167772160, 24), ⟨[], some addrTen24⟩)] 4).get_data
      none (some 3232236805) (some 167772165) =
    (PolicyRoutingTable.mk
      [(INADDR_ANY_KEY, ⟨[((0, 0), routeDefault)], none⟩),
       ((167772160, 24), ⟨[], some addrTen24⟩)] 4).anyTable.get_data
      none (some 3232236805) :=
  ((C5_policy_selection_fallback (PolicyRoutingTable.mk
      [(INADDR_ANY_KEY, ⟨[((0, 0), routeDefault)], none⟩),
       ((167772160, 24), ⟨[], some addrTen24⟩)] 4) 167772165
      none (some 3232236805)).1
    ((167772160, 24), ⟨[], some addrTen24⟩) (by decide) (by decide)
    (by decide)).2 (by decide)

/-! Helper lemmas on parsing, dict insertion and removal. -/

theorem removeFirst_sublist {α : Type} (l : List α) (f : α → Bool) :
    List.Sublist (removeFirst l f) l := by
  induction l with
  | nil => simp [removeFirst]
  | cons x xs ih =>
    rw [removeFirst]
    split
    · exact List.sublist_cons_self x xs
    · exact List.Sublist.cons₂ x ih

theorem dictInsert_append {α β : Type} [DecidableEq α] (l : List (α × β))
    (k : α) (v : β) (h : l.any (fun p => p.1 = k) = false) :
    dictInsert l k v = l ++ [(k, v)] := by
  unfold dictInsert
  rw [if_neg (by simp [h])]

theorem parseOctet_le {l : List Char} {n : Nat} (h : parseOctet l = some n) :
    n ≤ 255 := by
  unfold parseOctet at h
  split at h
  · split at h
    · next hle =>
      injection h with h
      omega
    · cases h
  · cases h

theorem inet_atonChars_lt {l : List Char} {n : Nat}
    (h : inet_atonChars l = some n) : n < 2 ^ 32 := by
  unfold inet_atonChars at h
  split at h
  · split at h
    · next pa pb pc pd hpa hpb hpc hpd =>
      injection h with h
      have h1 := parseOctet_le hpa
      have h2 := parseOctet_le hpb
      have h3 := parseOctet_le hpc
      have h4 := parseOctet_le hpd
      omega
    · cases h
  · cases h

theorem nw_addr_aton_ok {s : String} {nw mask gw : Nat}
    (h : nw_addr_aton s = .ok (nw, mask, gw)) :
    mask ≤ 32 ∧ gw < 2 ^ 32 ∧ nw = ipv4_apply_mask gw mask := by
  unfold nw_addr_aton at h
  split at h
  · cases h
  · next dr hdr =>
    split at h
    · cases h
    · next nm =>
      split at h
      · cases h
      · split at h
        · cases h
        · next hneg hle =>
          simp only [Except.ok.injEq, Prod.mk.injEq] at h
          obtain ⟨h1, h2, h3⟩ := h
          subst h2 h3
          refine ⟨by omega, inet_atonChars_lt hdr, h1.symm⟩

theorem AddressData_add_error_eq (d : AddressData) (s : String) (e : PyErr)
    (he : (d.add s).2 = .error e) : (d.add s).1 = d := by
  unfold AddressData.add at he ⊢
  split at he
  · next e2 heq => simp [heq]
  · next nw mask gw2 heq =>
    simp only [heq] at he ⊢
    split at he
    · next hov => simp [hov]
    · next hov => simp at he

/-! Claim C9: atomicity of failing adds. -/

/-- C9 counterexample: a failing `PolicyRoutingTable.add` with a source
qualifier whose table does not exist yet leaves the freshly created empty
source-qualified table behind: the state after the ValueError differs
from the state before (one extra table). -/
theorem C9_failing_add_atomicity_cex :
    (PolicyRoutingTable.init.add "bad" "10.0.0.254" (some addrTen24)).2 =
      .error .valueError ∧
    (PolicyRoutingTable.init.add "bad" "10.0.0.254" (some addrTen24)).1 ≠
      PolicyRoutingTable.init ∧
    (PolicyRoutingTable.init.add "bad" "10.0.0.254"
      (some addrTen24)).1.tables.length = 2 :=
  ⟨rfl, by decide, by decide⟩

/-- C9 (amended): a failing `AddressData.add` leaves the address state
exactly unchanged, and a failing `PolicyRoutingTable.add` leaves the
route_id counter and every existing table's entries unchanged — but when
the add carried a source qualifier whose table was absent, the lazily
created empty source-qualified table remains in the dict. -/
theorem C9_failing_add_atomicity (d : AddressData) (s : String)
    (p : PolicyRoutingTable) (dst gw : String) (sa : Option Address) :
    (∀ e, (d.add s).2 = .error e → (d.add s).1 = d) ∧
    (∀ e, (p.add dst gw sa).2 = .error e →
      (p.add dst gw sa).1.route_id = p.route_id ∧
      ((p.add dst gw sa).1.tables = p.tables ∨
       (p.tables.any (fun q => q.1 = policyKey sa) = false ∧
        (p.add dst gw sa).1.tables = p.tables ++ [(policyKey sa, ⟨[], sa⟩)]))) := by
  constructor
  · exact fun e he => AddressData_add_error_eq d s e he
  · intro e he
    unfold PolicyRoutingTable.add at he ⊢
    split at he
    · next t2 e2 heq =>
      simp only [heq]
      refine ⟨trivial, ?_⟩
      cases hin : p.tables.any (fun q => q.1 = policyKey sa) with
      | true => exact Or.inl (by simp [lazyTables, hin])
      | false => exact Or.inr ⟨rfl, by simp [lazyTables, hin]⟩
    · next t2 r heq =>
      simp only [heq] at he
      simp at he

/-- C9 witness: the AddressData branch on a malformed string and the
PolicyRoutingTable branch on the counterexample input. -/
theorem C9_failing_add_atomicity_witness :
    (AddressData.init.add "nonsense").1 = AddressData.init ∧
    ((PolicyRoutingTable.init.add "bad" "10.0.0.254" (some addrTen24)).1.route_id =
      PolicyRoutingTable.init.route_id ∧
     ((PolicyRoutingTable.init.add "bad" "10.0.0.254" (some addrTen24)).1.tables =
        PolicyRoutingTable.init.tables ∨
      (PolicyRoutingTable.init.tables.any
          (fun q => q.1 = policyKey (some addrTen24)) = false ∧
       (PolicyRoutingTable.init.add "bad" "10.0.0.254" (some addrTen24)).1.tables =
        PolicyRoutingTable.init.tables ++
          [(policyKey (some addrTen24), ⟨[], some addrTen24⟩)]))) :=
  ⟨(C9_failing_add_atomicity AddressData.init "nonsense" PolicyRoutingTable.init
      "bad" "10.0.0.254" (some addrTen24)).1 .valueError rfl,
   (C9_failing_add_atomicity AddressData.init "nonsense" PolicyRoutingTable.init
      "bad" "10.0.0.254" (some addrTen24)).2 .valueError rfl⟩

/-! Claim C4: address no-overlap invariant. -/

/-- The overlap checks of `AddressData.add` (host IP of one inside the
prefix of the other, in both directions) coincide with prefix containment
of the network addresses, in alignment form. -/
theorem align_checks (G H m k : Nat) :
    (maskAlign H k = maskAlign G k ∨ maskAlign G m = maskAlign H m) ↔
    (maskAlign (maskAlign G m) k = maskAlign H k ∨
     maskAlign (maskAlign H k) m = maskAlign G m) := by
  rw [maskAlign_maskAlign, maskAlign_maskAlign]
  rcases le_total k m with hkm | hmk
  · rw [min_eq_right hkm, min_eq_left hkm]
    constructor
    · rintro (h | h)
      · exact Or.inl h.symm
      · left
        have h2 : maskAlign (maskAlign G m) k = maskAlign (maskAlign H m) k := by
          rw [h]
        rw [maskAlign_maskAlign, maskAlign_maskAlign, min_eq_right hkm] at h2
        exact h2
    · rintro (h | h)
      · exact Or.inl h.symm
      · left
        have h2 : maskAlign (maskAlign H k) k = maskAlign (maskAlign G m) k := by
          rw [h]
        rw [maskAlign_idem, maskAlign_maskAlign, min_eq_right hkm] at h2
        exact h2
  · rw [min_eq_left hmk, min_eq_right hmk]
    constructor
    · rintro (h | h)
      · right
        have h2 : maskAlign (maskAlign H k) m = maskAlign (maskAlign G k) m := by
          rw [h]
        rw [maskAlign_maskAlign, maskAlign_maskAlign, min_eq_right hmk] at h2
        exact h2
      · exact Or.inr h.symm
    · rintro (h | h)
      · right
        have h2 : maskAlign (maskAlign G m) m = maskAlign (maskAlign H k) m := by
          rw [h]
        rw [maskAlign_idem, maskAlign_maskAlign, min_eq_right hmk] at h2
        exact h2
      · exact Or.inr h.symm

theorem ipv4_apply_mask_le (a m : Nat) : ipv4_apply_mask a m ≤ a :=
  Nat.and_le_left

/-- The `AddressData.add` overlap conditions against one stored Address
are equivalent to the claim's containment relation, both directions. -/
theorem checks_iff_within (x : Address) (nw mask gw : Nat)
    (hnw : nw = ipv4_apply_mask gw mask) (hmask : mask ≤ 32) (hgw : gw < 2 ^ 32)
    (hx1 : x.netmask ≤ 32) (hx2 : x.default_gw < 2 ^ 32)
    (hx3 : x.nw_addr = ipv4_apply_mask x.default_gw x.netmask) :
    ((x.nw_addr = ipv4_apply_mask gw x.netmask ∨
      nw = ipv4_apply_mask x.default_gw mask) ↔
     (nwWithin ⟨0, nw, mask, gw⟩ x ∨ nwWithin x ⟨0, nw, mask, gw⟩)) := by
  have hnwlt : nw < 2 ^ 32 := lt_of_le_of_lt (hnw ▸ ipv4_apply_mask_le gw mask) hgw
  have hxnwlt : x.nw_addr < 2 ^ 32 :=
    lt_of_le_of_lt (hx3 ▸ ipv4_apply_mask_le x.default_gw x.netmask) hx2
  have e1 : ipv4_apply_mask gw x.netmask = maskAlign gw x.netmask :=
    ipv4_apply_mask_eq gw x.netmask hgw hx1
  have e2 : ipv4_apply_mask x.default_gw mask = maskAlign x.default_gw mask :=
    ipv4_apply_mask_eq x.default_gw mask hx2 hmask
  have e3 : ipv4_apply_mask nw x.netmask = maskAlign nw x.netmask :=
    ipv4_apply_mask_eq nw x.netmask hnwlt hx1
  have e4 : ipv4_apply_mask x.nw_addr mask = maskAlign x.nw_addr mask :=
    ipv4_apply_mask_eq x.nw_addr mask hxnwlt hmask
  have e5 : nw = maskAlign gw mask := by
    rw [hnw, ipv4_apply_mask_eq gw mask hgw hmask]
  have e6 : x.nw_addr = maskAlign x.default_gw x.netmask := by
    rw [hx3, ipv4_apply_mask_eq x.default_gw x.netmask hx2 hx1]
  unfold nwWithin
  dsimp only
  rw [e1, e2, e3, e4]
  rw [e5, e6]
  exact align_checks gw x.default_gw mask x.netmask

/-- Invariant preservation by `AddressData.add`. -/
theorem ADInv_add (d : AddressData) (s : String) (h : ADInv d) :
    ADInv (d.add s).1 := by
  unfold AddressData.add
  split
  · exact h
  · next nw mask gw hparse =>
    split
    · exact h
    · next hov =>
      obtain ⟨hm32, hgw, hnw⟩ := nw_addr_aton_ok hparse
      have hovall : ∀ p ∈ d.addresses,
          ¬ (p.2.nw_addr = ipv4_apply_mask gw p.2.netmask) ∧
          ¬ (nw = ipv4_apply_mask p.2.default_gw mask) := by
        intro p hp
        have : (p.2.nw_addr == ipv4_apply_mask gw p.2.netmask ||
            nw == ipv4_apply_mask p.2.default_gw mask) = false := by
          by_contra hcon
          rw [Bool.not_eq_false] at hcon
          exact hov (List.any_eq_true.mpr ⟨p, hp, hcon⟩)
        simp only [Bool.or_eq_false_iff, beq_eq_false_iff_ne, ne_eq] at this
        exact this
      have hkeyfree : d.addresses.any (fun p => p.1 = (nw, mask)) = false := by
        by_contra hcon
        rw [Bool.not_eq_false, List.any_eq_true] at hcon
        obtain ⟨p, hp, hkey⟩ := hcon
        simp only [decide_eq_true_eq] at hkey
        obtain ⟨hk1, _, _, hal⟩ := h.1 p hp
        rw [hk1] at hkey
        have h1 : p.2.nw_addr = nw := (Prod.mk.injEq _ _ _ _ ▸ hkey).1
        have h2 : p.2.netmask = mask := (Prod.mk.injEq _ _ _ _ ▸ hkey).2
        exact (hovall p hp).1 (by rw [h1, h2, ← hnw])
      dsimp only
      rw [dictInsert_append _ _ _ hkeyfree]
      constructor
      · intro p hp
        rcases List.mem_append.mp hp with hp | hp
        · exact h.1 p hp
        · rcases List.mem_singleton.mp hp with rfl
          exact ⟨rfl, hm32, hgw, hnw⟩
      · rw [List.map_append, List.pairwise_append]
        refine ⟨h.2, List.pairwise_singleton _ _, ?_⟩
        intro x hx y hy
        rcases List.mem_singleton.mp hy with rfl
        obtain ⟨p, hp, hpx⟩ := List.mem_map.mp hx
        obtain ⟨_, hx1, hx2, hx3⟩ := h.1 p hp
        rw [← hpx]
        have hiff := checks_iff_within p.2 nw mask gw hnw hm32 hgw hx1 hx2 hx3
        have hnw2 : ∀ z : Address, z.nw_addr = nw → z.netmask = mask →
            ∀ w, (nwWithin z w ↔ nwWithin ⟨0, nw, mask, gw⟩ w) ∧
                 (nwWithin w z ↔ nwWithin w ⟨0, nw, mask, gw⟩) := by
          intro z hz1 hz2 w
          refine ⟨?_, ?_⟩
          · unfold nwWithin
            dsimp only
            rw [hz1]
          · unfold nwWithin
            dsimp only
            rw [hz1, hz2]
        have hnot : ¬ (nwWithin ⟨0, nw, mask, gw⟩ p.2 ∨
            nwWithin p.2 ⟨0, nw, mask, gw⟩) := by
          intro hcon
          rcases (hiff.mpr hcon) with hc | hc
          · exact (hovall p hp).1 hc
          · exact (hovall p hp).2 hc
        refine ⟨?_, ?_⟩
        · intro hcon
          exact hnot (Or.inr ((hnw2 ⟨d.address_id, nw, mask, gw⟩ rfl rfl p.2).2.mp hcon))
        · intro hcon
          exact hnot (Or.inl ((hnw2 ⟨d.address_id, nw, mask, gw⟩ rfl rfl p.2).1.mp hcon))

/-- Invariant preservation by `AddressData.delete`. -/
theorem ADInv_del (d : AddressData) (i : Nat) (h : ADInv d) :
    ADInv (d.delete i) := by
  obtain ⟨h1, h2⟩ := h
  have hsub : List.Sublist (d.delete i).addresses d.addresses :=
    removeFirst_sublist _ _
  exact ⟨fun p hp => h1 p (hsub.subset hp),
    List.Pairwise.sublist (hsub.map (·.2)) h2⟩

/-- Every reachable AddressData satisfies the invariant. -/
theorem ADInv_reachable (d : AddressData) (h : ADReachable d) : ADInv d := by
  induction h with
  | init => exact ⟨by simp [AddressData.init], by simp [AddressData.init]⟩
  | add d s _ ih => exact ADInv_add d s ih
  | del d i _ ih => exact ADInv_del d i ih

/-- C4: in every state reachable by add and delete calls, no stored
Address's network address lies within another stored Address's prefix;
`AddressData.add` raises CommandFailure and leaves the state unchanged
whenever the requested subnet overlaps a stored Address in either
direction, and raises ValueError (state unchanged) on a malformed CIDR
string. -/
theorem C4_address_no_overlap (d : AddressData) (s : String)
    (h : ADReachable d) :
    ((d.addresses.map (·.2)).Pairwise
      (fun x y => ¬ nwWithin x y ∧ ¬ nwWithin y x)) ∧
    (∀ e, (d.add s).2 = .error e → (d.add s).1 = d) ∧
    (∀ nw mask gw, nw_addr_aton s = .ok (nw, mask, gw) →
      (∃ p ∈ d.addresses, nwWithin ⟨0, nw, mask, gw⟩ p.2 ∨
        nwWithin p.2 ⟨0, nw, mask, gw⟩) →
      (d.add s).2 = .error .commandFailure) ∧
    (∀ e, nw_addr_aton s = .error e → (d.add s).2 = .error e) := by
  have hinv := ADInv_reachable d h
  refine ⟨hinv.2, fun e he => AddressData_add_error_eq d s e he, ?_, ?_⟩
  · intro nw mask gw hparse hover
    obtain ⟨hm32, hgw, hnw⟩ := nw_addr_aton_ok hparse
    obtain ⟨p, hp, hwithin⟩ := hover
    obtain ⟨_, hx1, hx2, hx3⟩ := hinv.1 p hp
    have hcheck := (checks_iff_within p.2 nw mask gw hnw hm32 hgw hx1 hx2 hx3).mpr
      hwithin
    have hany : d.addresses.any (fun q =>
        q.2.nw_addr == ipv4_apply_mask gw q.2.netmask ||
        nw == ipv4_apply_mask q.2.default_gw mask) = true := by
      refine List.any_eq_true.mpr ⟨p, hp, ?_⟩
      rcases hcheck with hc | hc
      · simp [hc]
      · simp [hc]
    unfold AddressData.add
    rw [hparse]
    dsimp only
    rw [if_pos hany]
  · intro e he
    unfold AddressData.add
    rw [he]

/-- C4 witness: after adding 10.0.0.1/24, the pairwise invariant holds,
an overlapping add 10.0.0.5/28 raises CommandFailure with the state
unchanged, and a malformed string raises ValueError with the state
unchanged. -/
theorem C4_address_no_overlap_witness :
    ((adOneAddr.addresses.map (·.2)).Pairwise
      (fun x y => ¬ nwWithin x y ∧ ¬ nwWithin y x)) ∧
    (adOneAddr.add "10.0.0.5/28").2 = .error .commandFailure ∧
    (adOneAddr.add "foo").2 = .error .valueError ∧
    (adOneAddr.add "foo").1 = adOneAddr := by
  have hreach : ADReachable adOneAddr :=
    ADReachable.add AddressData.init "10.0.0.1/24" ADReachable.init
  refine ⟨(C4_address_no_overlap adOneAddr "x" hreach).1, ?_, ?_, ?_⟩
  · exact (C4_address_no_overlap adOneAddr "10.0.0.5/28" hreach).2.2.1
      167772160 28 167772165 rfl
      ⟨((167772160, 24), ⟨1, 167772160, 24, 167772161⟩), by decide,
        Or.inl (by decide)⟩
  · exact (C4_address_no_overlap adOneAddr "foo" hreach).2.2.2 .valueError rfl
  · exact (C4_address_no_overlap adOneAddr "foo" hreach).2.1 .valueError
      ((C4_address_no_overlap adOneAddr "foo" hreach).2.2.2 .valueError rfl)

/-! Claim C3: bounded suspend queue. -/

/-- The deletion loop of `_delete_address_data` never grows the suspend
buffer. -/
theorem delete_fold_len (l : List FlowStats) (acc : VRState × List Nat) :
    (l.foldl delete_addr_step acc).1.packet_buffer.length ≤
      acc.1.packet_buffer.length := by
  induction l generalizing acc with
  | nil => simp
  | cons fs l ih =>
    rw [List.foldl_cons]
    refine le_trans (ih (delete_addr_step acc fs)) ?_
    unfold delete_addr_step
    dsimp only
    split
    · next del_address heq =>
      dsimp only
      simpa [suspend_delete_addr] using
        List.length_filter_le _ acc.1.packet_buffer
    · exact le_rfl

/-- C3: every reachable VlanRouter state holds at most
MAX_SUSPENDPACKETS = 3 suspended packets; `_packetin_to_node` returns
without enqueuing and without sending an ARP request when the buffer is
full, and the dequeue operations (ARP-reply dequeue, timer expiry,
address deletion) only remove entries. -/
theorem C3_bounded_suspend_queue (vr : VRState) (h : VRReachable vr) :
    vr.packet_buffer.length ≤ MAX_SUSPENDPACKETS ∧
    (∀ in_port ip_src ip_dst data,
      MAX_SUSPENDPACKETS ≤ vr.packet_buffer.length →
      packetin_to_node vr in_port ip_src ip_dst data = (vr, false)) ∧
    (∀ src_ip, List.Sublist (arp_reply_dequeue vr src_ip).packet_buffer
      vr.packet_buffer) ∧
    (∀ pkt, List.Sublist (timer_expire vr pkt).packet_buffer
      vr.packet_buffer) ∧
    (∀ address_id flows,
      (delete_address_data vr address_id flows).1.packet_buffer.length ≤
        vr.packet_buffer.length) := by
  refine ⟨?_, ?_, ?_, ?_, ?_⟩
  · induction h with
    | init vlan_id => simp [VRState.init, MAX_SUSPENDPACKETS]
    | step s s2 hr hs ih =>
      cases hs with
      | packetin in_port ip_src ip_dst data =>
        unfold packetin_to_node
        split
        · exact ih
        · next hlt =>
          dsimp only
          split
          · dsimp only
            simp only [List.length_append, List.length_singleton,
              MAX_SUSPENDPACKETS, Nat.not_le] at *
            omega
          · exact ih
      | arp_reply src_ip =>
        unfold arp_reply_dequeue
        dsimp only
        exact le_trans (List.length_filter_le _ _) ih
      | timer pkt =>
        unfold timer_expire
        split
        · dsimp only
          exact le_trans (List.Sublist.length_le (List.erase_sublist _ _)) ih
        · exact ih
      | addr_delete address_id flows =>
        unfold delete_address_data
        dsimp only
        exact le_trans (delete_fold_len _ _) ih
      | tables ad pt => exact ih
  · intro in_port ip_src ip_dst data hfull
    unfold packetin_to_node
    rw [if_pos hfull]
  · intro src_ip
    unfold arp_reply_dequeue
    dsimp only
    exact List.filter_sublist _
  · intro pkt
    unfold timer_expire
    split
    · dsimp only
      exact List.erase_sublist _ _
    · exact List.Sublist.refl _
  · intro address_id flows
    unfold delete_address_data
    dsimp only
    exact delete_fold_len _ _

/-- C3 witness: a reachable state with a full (3-entry) buffer over an
address 10.0.0.1/24; the bound holds and a further packet-in is dropped
without an ARP request. -/
theorem C3_bounded_suspend_queue_witness :
    vrFull.packet_buffer.length ≤ MAX_SUSPENDPACKETS ∧
    packetin_to_node vrFull 1 9 167772165 7 = (vrFull, false) := by
  have h0 : VRReachable (VRState.init 0) := VRReachable.init 0
  have h1 : VRReachable ⟨0, adOneAddr, PolicyRoutingTable.init, []⟩ :=
    VRReachable.step _ _ h0 (VRStep.tables _ adOneAddr PolicyRoutingTable.init)
  have h2 := VRReachable.step _ _ h1 (VRStep.packetin _ 1 9 167772165 7)
  rw [show (packetin_to_node ⟨0, adOneAddr, PolicyRoutingTable.init, []⟩
      1 9 167772165 7).1 =
    ⟨0, adOneAddr, PolicyRoutingTable.init, [⟨1, 167772165, 7⟩]⟩ from by decide]
    at h2
  have h3 := VRReachable.step _ _ h2 (VRStep.packetin _ 1 9 167772165 7)
  rw [show (packetin_to_node ⟨0, adOneAddr, PolicyRoutingTable.init,
      [⟨1, 167772165, 7⟩]⟩ 1 9 167772165 7).1 =
    ⟨0, adOneAddr, PolicyRoutingTable.init,
      [⟨1, 167772165, 7⟩, ⟨1, 167772165, 7⟩]⟩ from by decide] at h3
  have h4 := VRReachable.step _ _ h3 (VRStep.packetin _ 1 9 167772165 7)
  rw [show (packetin_to_node ⟨0, adOneAddr, PolicyRoutingTable.init,
      [⟨1, 167772165, 7⟩, ⟨1, 167772165, 7⟩]⟩ 1 9 167772165 7).1 =
    vrFull from by decide] at h4
  exact ⟨(C3_bounded_suspend_queue vrFull h4).1,
    (C3_bounded_suspend_queue vrFull h4).2.1 1 9 167772165 7 (by decide)⟩

/-! Claim C7: address deletion refused while a route depends on it. -/

/-- Specification of the `_chk_addr_relation_route` loop for a specific
id: it returns [id] exactly when some gateway's Address carries that id,
and [] otherwise. -/
theorem chkGo_some_spec (ad : AddressData) (i : Nat)
    (l : List (Nat × Option Nat)) :
    (chkGo ad (some i) l [] = [i] ∨ chkGo ad (some i) l [] = []) ∧
    (chkGo ad (some i) l [] = [i] ↔
      ∃ g ∈ l, ∃ a, ad.get_data_by_ip g.1 = some a ∧ a.address_id = i) := by
  induction l with
  | nil =>
    refine ⟨Or.inr rfl, ?_⟩
    simp [chkGo]
  | cons g l ih =>
    rw [chkGo]
    cases hba : ad.get_data_by_ip g.1 with
    | none =>
      refine ⟨ih.1, ?_⟩
      rw [ih.2]
      constructor
      · rintro ⟨g2, hg2, ha⟩
        exact ⟨g2, List.mem_cons_of_mem g hg2, ha⟩
      · rintro ⟨g2, hg2, a, ha, hai⟩
        rcases List.mem_cons.mp hg2 with rfl | hg2
        · rw [hba] at ha; cases ha
        · exact ⟨g2, hg2, a, ha, hai⟩
    | some address =>
      dsimp only
      by_cases hid : address.address_id = i
      · rw [if_pos hid]
        refine ⟨Or.inl rfl, ?_⟩
        constructor
        · intro _
          exact ⟨g, List.mem_cons_self g l, address, hba, hid⟩
        · intro _
          rfl
      · rw [if_neg hid]
        refine ⟨ih.1, ?_⟩
        rw [ih.2]
        constructor
        · rintro ⟨g2, hg2, ha⟩
          exact ⟨g2, List.mem_cons_of_mem g hg2, ha⟩
        · rintro ⟨g2, hg2, a, ha, hai⟩
          rcases List.mem_cons.mp hg2 with rfl | hg2
          · rw [hba] at ha
            injection ha with heq
            subst heq
            exact absurd hai hid
          · exact ⟨g2, hg2, a, ha, hai⟩

/-- Removing the first match drops exactly the head of the filtered
list. -/
theorem filter_removeFirst {α : Type} (l : List α) (f : α → Bool) :
    (removeFirst l f).filter f = (l.filter f).tail := by
  induction l with
  | nil => simp [removeFirst]
  | cons x xs ih =>
    rw [removeFirst]
    by_cases hx : f x = true
    · rw [if_pos hx, List.filter_cons_of_pos hx, List.tail_cons]
    · rw [if_neg hx, List.filter_cons_of_neg (by simpa using hx),
        List.filter_cons_of_neg (by simpa using hx), ih]

theorem get_data_by_id_none_iff (d : AddressData) (i : Nat) :
    d.get_data_by_id i = none ↔
      d.addresses.filter (fun p => p.2.address_id == i) = [] := by
  rw [AddressData.get_data_by_id, Option.map_eq_none', List.find?_eq_none,
    List.filter_eq_nil_iff]

/-- Deleting an id held by at most one stored Address leaves no Address
with that id. -/
theorem delete_by_id_none (d : AddressData) (i : Nat)
    (h : (d.addresses.filter (fun p => p.2.address_id == i)).length ≤ 1) :
    (d.delete i).get_data_by_id i = none := by
  rw [get_data_by_id_none_iff]
  unfold AddressData.delete
  dsimp only
  rw [filter_removeFirst]
  cases hf : d.addresses.filter (fun p => p.2.address_id == i) with
  | nil => simp
  | cons x xs =>
    rw [hf] at h
    simp only [List.length_cons] at h
    rw [List.tail_cons]
    exact List.eq_nil_of_length_eq_zero (by omega)

theorem by_id_none_delete (d : AddressData) (i j : Nat)
    (h : d.get_data_by_id i = none) :
    (d.delete j).get_data_by_id i = none := by
  rw [get_data_by_id_none_iff] at h ⊢
  rw [List.filter_eq_nil_iff] at h ⊢
  intro a ha
  exact h a ((removeFirst_sublist _ _).subset ha)

/-- Absence of an id is preserved by the deletion loop. -/
theorem delete_fold_none (l : List FlowStats) (acc : VRState × List Nat)
    (i : Nat) (h : acc.1.address_data.get_data_by_id i = none) :
    (l.foldl delete_addr_step acc).1.address_data.get_data_by_id i = none := by
  induction l generalizing acc with
  | nil => simpa using h
  | cons fs l ih =>
    rw [List.foldl_cons]
    apply ih
    unfold delete_addr_step
    dsimp only
    split
    · next del_address heq =>
      dsimp only
      exact by_id_none_delete _ _ _ h
    · exact h

/-- After the deletion loop runs over a nonempty list of flows all
decoding to id i (held by at most one stored Address), no Address with
id i remains. -/
theorem delete_fold_hit (l : List FlowStats) (vr : VRState) (ids : List Nat)
    (i : Nat) (hl : ∀ fs ∈ l, cookie_to_id .addressid fs.cookie = i)
    (hcnt : (vr.address_data.addresses.filter
      (fun p => p.2.address_id == i)).length ≤ 1)
    (hne : l ≠ []) :
    (l.foldl delete_addr_step (vr, ids)).1.address_data.get_data_by_id i
      = none := by
  cases l with
  | nil => exact absurd rfl hne
  | cons fs l =>
    rw [List.foldl_cons]
    apply delete_fold_none
    unfold delete_addr_step
    dsimp only
    rw [hl fs (List.mem_cons_self _ _)]
    split
    · next del_address heq =>
      dsimp only
      exact delete_by_id_none _ _ hcnt
    · next heq => exact heq

/-- C7: `_delete_address_data` with a specific address_id refuses the
deletion when some route's gateway lies inside the Address with that id —
nothing is deleted and the response is the failure message with the
'Skip delete (related route exist)' details; without a dependent route
the flows whose cookie matches (vlan, address_id) form the delete list
and, as soon as one such flow exists, the Address is removed. -/
theorem C7_address_delete_dependency (vr : VRState) (i : Nat)
    (flows : List FlowStats)
    (hcnt : (vr.address_data.addresses.filter
      (fun p => p.2.address_id == i)).length ≤ 1) :
    ((∃ g ∈ vr.policy_routing_tbl.get_all_gateway_info,
        ∃ a, vr.address_data.get_data_by_ip g.1 = some a ∧ a.address_id = i) →
      delete_address_data vr (some i) flows =
        (vr, [], some ("failure",
          "Skip delete (related route exist) [address_id=" ++ toString i
            ++ "]"))) ∧
    ((¬ ∃ g ∈ vr.policy_routing_tbl.get_all_gateway_info,
        ∃ a, vr.address_data.get_data_by_ip g.1 = some a ∧ a.address_id = i) →
      (delete_address_data vr (some i) flows).2.1 =
        flows.filter (fun st =>
          cookie_to_id .vlanid st.cookie == vr.vlan_id &&
          cookie_to_id .addressid st.cookie == i) ∧
      ((∃ st ∈ flows, cookie_to_id .vlanid st.cookie = vr.vlan_id ∧
          cookie_to_id .addressid st.cookie = i) →
        (delete_address_data vr (some i) flows).1.address_data.get_data_by_id i
          = none)) := by
  have hchk := chkGo_some_spec vr.address_data i
    vr.policy_routing_tbl.get_all_gateway_info
  constructor
  · intro hdep
    have hskip : chk_addr_relation_route vr (some i) = [i] := by
      rw [chk_addr_relation_route]
      exact hchk.2.mpr hdep
    have hdel : flows.filter (fun st =>
        cookie_to_id .vlanid st.cookie == vr.vlan_id &&
        (if cookie_to_id .addressid st.cookie ∈
            chk_addr_relation_route vr (some i) then false
         else cookie_to_id .addressid st.cookie == i)) = [] := by
      rw [List.filter_eq_nil_iff]
      intro st hst
      rw [hskip]
      by_cases hdec : cookie_to_id .addressid st.cookie = i
      · simp [hdec]
      · simp [List.mem_singleton, hdec]
    unfold delete_address_data
    dsimp only
    rw [hdel, List.foldl_nil, hskip]
    norm_num
    rfl
  · intro hno
    have hskip : chk_addr_relation_route vr (some i) = [] := by
      rcases hchk.1 with h1 | h1
      · exact absurd (hchk.2.mp h1) hno
      · rw [chk_addr_relation_route]
        exact h1
    have hdel : flows.filter (fun st =>
        cookie_to_id .vlanid st.cookie == vr.vlan_id &&
        (if cookie_to_id .addressid st.cookie ∈
            chk_addr_relation_route vr (some i) then false
         else cookie_to_id .addressid st.cookie == i)) =
        flows.filter (fun st =>
          cookie_to_id .vlanid st.cookie == vr.vlan_id &&
          cookie_to_id .addressid st.cookie == i) := by
      apply List.filter_congr
      intro st hst
      rw [hskip]
      simp
    constructor
    · unfold delete_address_data
      dsimp only
      rw [hdel]
    · intro hex
      unfold delete_address_data
      dsimp only
      rw [hdel]
      apply delete_fold_hit
      · intro fs hfs
        have := List.mem_filter.mp hfs
        have h2 := this.2
        simp only [Bool.and_eq_true, beq_iff_eq] at h2
        exact h2.2
      · exact hcnt
      · obtain ⟨st, hst, hv, hi⟩ := hex
        intro hnil
        rw [List.filter_eq_nil_iff] at hnil
        exact hnil st hst (by simp [hv, hi])

/-- C7 witness: on a router whose default route's gateway lies in Address
1, deleting address 1 is refused with the skip message; on a router with
no routes the cookie-matching flow is selected and Address 1 removed. -/
theorem C7_address_delete_dependency_witness :
    delete_address_data vrWithRoute (some 1) [⟨1, 1⟩] =
      (vrWithRoute, [], some ("failure",
        "Skip delete (related route exist) [address_id=1]")) ∧
    (delete_address_data ⟨0, adOneAddr, PolicyRoutingTable.init, []⟩ (some 1)
      [⟨1, 1⟩]).2.1 = [⟨1, 1⟩] ∧
    (delete_address_data ⟨0, adOneAddr, PolicyRoutingTable.init, []⟩ (some 1)
      [⟨1, 1⟩]).1.address_data.get_data_by_id 1 = none := by
  have h1 := (C7_address_delete_dependency vrWithRoute 1 [⟨1, 1⟩]
    (by decide)).1 (by decide)
  have h2 := (C7_address_delete_dependency
    ⟨0, adOneAddr, PolicyRoutingTable.init, []⟩ 1 [⟨1, 1⟩] (by decide)).2
    (by decide)
  refine ⟨h1, ?_, h2.2 (by decide)⟩
  rw [h2.1]
  decide

/-! Claim C8: stats timeout cleanup. -/

theorem find?_filter_ne_none {α β : Type} [DecidableEq α]
    (l : List (α × β)) (k : α) :
    (l.filter (fun q => q.1 ≠ k)).find? (fun q => q.1 = k) = none := by
  rw [List.find?_eq_none]
  intro x hx
  have h2 := (List.mem_filter.mp hx).2
  simp only [ne_eq, decide_not, Bool.not_eq_true', decide_eq_false_iff_not]
    at h2
  simp [h2]

/-- A reply event for another (dp, xid) leaves the collected list and the
done flag of the wait untouched. -/
theorem statsWaitStep_foreign (dp_id xid : Nat)
    (st : Waiters × List Nat × Bool) (ev : StatsReplyEvent)
    (h : ¬(ev.dp_id = dp_id ∧ ev.xid = xid)) :
    (statsWaitStep dp_id xid st ev).2 = st.2 := by
  unfold statsWaitStep
  split
  · rfl
  · dsimp only
    have hours : (ev.dp_id == dp_id && ev.xid == xid) = false := by
      by_contra hb
      rw [Bool.not_eq_false, Bool.and_eq_true, beq_iff_eq, beq_iff_eq] at hb
      exact h hb
    rw [hours]
    split
    · simp
    · simp

theorem statsWait_foreign (dp_id xid : Nat) (l : List StatsReplyEvent)
    (st : Waiters × List Nat × Bool)
    (h : ∀ ev ∈ l, ¬(ev.dp_id = dp_id ∧ ev.xid = xid)) :
    (l.foldl (statsWaitStep dp_id xid) st).2 = st.2 := by
  induction l generalizing st with
  | nil => rfl
  | cons ev l ih =>
    rw [List.foldl_cons,
      ih (statsWaitStep dp_id xid st ev)
        (fun e he => h e (List.mem_cons_of_mem _ he))]
    exact statsWaitStep_foreign dp_id xid st ev (h ev (List.mem_cons_self _ _))

/-- C8: when the wait for a stats reply times out (no final reply for the
xid arrived), `send_stats_request` deletes the waiters entry for
(datapath id, xid) and returns exactly the replies collected so far — the
empty list when no reply for that xid arrived — and the timeout bound is
OFP_REPLY_TIMER = 1.0 s. -/
theorem C8_stats_timeout_cleanup (w : Waiters) (dp_id xid : Nat)
    (events : List StatsReplyEvent)
    (htimeout : (events.foldl (statsWaitStep dp_id xid)
      (dictInsert w (dp_id, xid) [], [], false)).2.2 = false) :
    OFP_REPLY_TIMER = 1 ∧
    (send_stats_request w dp_id xid events).2 =
      (events.foldl (statsWaitStep dp_id xid)
        (dictInsert w (dp_id, xid) [], [], false)).2.1 ∧
    (send_stats_request w dp_id xid events).1.find?
      (fun q => q.1 = (dp_id, xid)) = none ∧
    ((∀ ev ∈ events, ¬(ev.dp_id = dp_id ∧ ev.xid = xid)) →
      (send_stats_request w dp_id xid events).2 = []) := by
  have hres : send_stats_request w dp_id xid events =
      ((events.foldl (statsWaitStep dp_id xid)
        (dictInsert w (dp_id, xid) [], [], false)).1.filter
        (fun q => q.1 ≠ (dp_id, xid)),
       (events.foldl (statsWaitStep dp_id xid)
        (dictInsert w (dp_id, xid) [], [], false)).2.1) := by
    unfold send_stats_request
    dsimp only
    rw [htimeout]
    simp
  refine ⟨rfl, by rw [hres], ?_, ?_⟩
  · rw [hres]
    exact find?_filter_ne_none _ _
  · intro hforeign
    rw [hres]
    have h2 := statsWait_foreign dp_id xid events
      (dictInsert w (dp_id, xid) [], [], false) hforeign
    exact congrArg Prod.fst h2

/-- C8 witness: one non-final reply for our xid arrives, then the wait
times out; the collected message is returned and the xid entry is
gone. -/
theorem C8_stats_timeout_cleanup_witness :
    (send_stats_request [] 1 5 [⟨1, 5, 42, false⟩]).2 = [42] ∧
    (send_stats_request [] 1 5 [⟨1, 5, 42, false⟩]).1.find?
      (fun q => q.1 = (1, 5)) = none := by
  have h := C8_stats_timeout_cleanup [] 1 5 [⟨1, 5, 42, false⟩] (by decide)
  refine ⟨?_, h.2.2.1⟩
  rw [h.2.1]
  decide

/-! Claim C10: persistence of the VLAN-none router. -/

theorem map_update_keys (r : RouterState) (vid : Nat) (vr2 : VRState) :
    (r.map (fun q => if q.1 = vid then (vid, vr2) else q)).map Prod.fst =
      r.map Prod.fst := by
  rw [List.map_map]
  apply List.map_congr_left
  intro q hq
  by_cases hqv : q.1 = vid
  · simp [hqv]
  · simp [hqv]

/-- Keys of a reachable Router dict are distinct. -/
theorem router_keys_nodup (r : RouterState) (h : RouterReachable r) :
    (r.map Prod.fst).Nodup := by
  induction h with
  | init => simp [routerInit]
  | step r r2 hr hs ih =>
    cases hs with
    | add_vlan vid hvid hnew =>
      rw [List.map_append]
      refine List.Nodup.append ih (by simp) ?_
      intro a ha hb
      simp only [List.map_cons, List.map_nil, List.mem_singleton] at hb
      subst hb
      obtain ⟨q, hq, hq2⟩ := List.mem_map.mp ha
      rw [List.find?_eq_none] at hnew
      exact absurd (by simpa using hq2) (by simpa using hnew q hq)
    | inner vid vr2 =>
      rw [map_update_keys]
      exact ih
    | del vid =>
      unfold del_vlan_router
      split
      · exact ih
      · split
        · exact ih
        · dsimp only
          split
          · exact List.Nodup.sublist ((List.filter_sublist _).map _) ih
          · rw [map_update_keys]
            exact ih

/-- The VLANID_NONE entry survives every step. -/
theorem router_vlan_none_mem (r : RouterState) (h : RouterReachable r) :
    ∃ q ∈ r, q.1 = VLANID_NONE := by
  induction h with
  | init =>
    exact ⟨(VLANID_NONE, VRState.init VLANID_NONE), by simp [routerInit], rfl⟩
  | step r r2 hr hs ih =>
    obtain ⟨q, hq, hq0⟩ := ih
    cases hs with
    | add_vlan vid hvid hnew => exact ⟨q, List.mem_append_left _ hq, hq0⟩
    | inner vid vr2 =>
      by_cases hqv : q.1 = vid
      · refine ⟨(vid, vr2), List.mem_map.mpr ⟨q, hq, by simp [hqv]⟩, ?_⟩
        rw [← hqv, hq0]
      · exact ⟨q, List.mem_map.mpr ⟨q, hq, by simp [hqv]⟩, hq0⟩
    | del vid =>
      unfold del_vlan_router
      split
      · exact ⟨q, hq, hq0⟩
      · next hvid0 =>
        split
        · exact ⟨q, hq, hq0⟩
        · dsimp only
          have hqv : q.1 ≠ vid := by
            rw [hq0]
            exact fun hh => hvid0 hh.symm
          split
          · exact ⟨q, List.mem_filter.mpr ⟨hq, by simpa using hqv⟩, hq0⟩
          · exact ⟨q, List.mem_map.mpr ⟨q, hq, by simp [hqv]⟩, hq0⟩

/-- C10: every reachable Router dict contains the VLANID_NONE VlanRouter;
`_del_vlan_router` is the identity on VLANID_NONE; and a VlanRouter under
any other vid is removed by `_del_vlan_router` exactly when (after the
garbage collection of empty source tables) it has no addresses and only
the empty any-source routing table. -/
theorem C10_vlan_none_persistent (r : RouterState) (h : RouterReachable r) :
    (∃ q ∈ r, q.1 = VLANID_NONE) ∧
    del_vlan_router r VLANID_NONE = r ∧
    (∀ vid, vid ≠ VLANID_NONE → ∀ qv ∈ r, qv.1 = vid →
      ((del_vlan_router r vid).find? (fun q => q.1 = vid) = none ↔
        (({qv.2 with policy_routing_tbl :=
            qv.2.policy_routing_tbl.gc_subnet_tables} : VRState).address_data.addresses
            = [] ∧
         ({qv.2 with policy_routing_tbl :=
            qv.2.policy_routing_tbl.gc_subnet_tables} : VRState).policy_routing_tbl.tables.length
            = 1 ∧
         ({qv.2 with policy_routing_tbl :=
            qv.2.policy_routing_tbl.gc_subnet_tables} : VRState).policy_routing_tbl.anyTable.routes
            = []))) := by
  refine ⟨router_vlan_none_mem r h, by unfold del_vlan_router; simp, ?_⟩
  intro vid hvid qv hqv hkey
  have hnodup := router_keys_nodup r h
  have hfind : r.find? (fun q => q.1 = vid) = some qv := by
    apply find?_eq_of_unique _ _ qv hqv (by simp [hkey])
    intro q2 hq2 hq2k
    simp only [decide_eq_true_eq] at hq2k
    exact List.inj_on_of_nodup_map hnodup hq2 hqv (by rw [hq2k, hkey])
  unfold del_vlan_router
  rw [if_neg hvid, hfind]
  dsimp only
  split
  · next hcond =>
    constructor
    · intro _
      exact hcond
    · intro _
      exact find?_filter_ne_none r vid
  · next hcond =>
    have hmem : ((vid, ({qv.2 with policy_routing_tbl :=
          qv.2.policy_routing_tbl.gc_subnet_tables} : VRState)) : Nat × VRState) ∈
        r.map (fun q => if q.1 = vid then
          (vid, {qv.2 with policy_routing_tbl :=
            qv.2.policy_routing_tbl.gc_subnet_tables}) else q) :=
      List.mem_map.mpr ⟨qv, hqv, by simp [hkey]⟩
    constructor
    · intro hnone
      rw [List.find?_eq_none] at hnone
      exact absurd (by simp) (hnone _ hmem)
    · intro hc
      exact absurd hc hcond

/-- C10 witness: the fresh router keeps the VLAN-none entry, and an added
empty VLAN 5 is destroyed by `_del_vlan_router`. -/
theorem C10_vlan_none_persistent_witness :
    (∃ q ∈ routerInit, q.1 = VLANID_NONE) ∧
    (del_vlan_router (routerInit ++ [(5, VRState.init 5)]) 5).find?
      (fun q => q.1 = 5) = none := by
  have h1 : RouterReachable routerInit := RouterReachable.init
  have h2 : RouterReachable (routerInit ++ [(5, VRState.init 5)]) :=
    RouterReachable.step _ _ h1
      (RouterStep.add_vlan _ 5 (Or.inr (by decide)) (by decide))
  refine ⟨(C10_vlan_none_persistent routerInit h1).1, ?_⟩
  exact ((C10_vlan_none_persistent _ h2).2.2 5 (by decide) (5, VRState.init 5)
    (by simp [routerInit]) rfl).mpr (by decide)

end Plexus
